import Mathlib

/-!
Model viewer (`src/app.js`): a verification development

The viewer is a single script around a rendering library.  The development
embeds four groups of its code:

* geometry: `centerAndNormalize` over a scene graph with exact arithmetic;
* loader dispatch: the string handling and branching of `loadAny`;
* viewer state: scene membership, active object, backdrop and splat preset
  (`removeCurrent`, `loadAny`, `applyStateForCurrent`, the toggle handler);
* VR interaction: the numeric state driven by `updateControllerRotation`,
  `getThumbstickY`, `placeObjectInFrontOfCamera` and the animation loop.

JavaScript numbers are modelled by an ordered field `K` (exact arithmetic, no
NaN and no infinities); definitions are computable and are evaluated at `ℚ`.
The rendering library (scene graph, `Box3`, `Matrix4`, loaders) is modelled
through its documented behaviour.
-/

namespace ModelViewer

/-! ## Geometry: `Box3`, `Matrix4`, scene graph, `centerAndNormalize` -/

/-- A three-component vector (`THREE.Vector3`). -/
structure Vector3 (K : Type) where
  x : K
  y : K
  z : K
deriving DecidableEq

/-- The affine rows of a `THREE.Matrix4` (row-major element names as in the
library's `set`); the fourth row is `0 0 0 1` for every transform the viewer
builds (compositions of translations, rotations and scales). -/
structure Matrix4 (K : Type) where
  n11 : K
  n12 : K
  n13 : K
  n14 : K
  n21 : K
  n22 : K
  n23 : K
  n24 : K
  n31 : K
  n32 : K
  n33 : K
  n34 : K
deriving DecidableEq

/-- An axis-aligned box with finite corners.  The library's empty box
(`min = +∞`, `max = -∞`) is `none` in `Option (Box3 K)`. -/
structure Box3 (K : Type) where
  min : Vector3 K
  max : Vector3 K
deriving DecidableEq

/-- A scene-graph node (`THREE.Object3D`): its local matrix (composed from
position, quaternion and scale), the vertex positions of its geometry (empty
for a `Group`), and its children. -/
inductive Object3D (K : Type) where
  | mk (matrix : Matrix4 K) (geometry : List (Vector3 K)) (children : List (Object3D K)) : Object3D K

section Geometry

variable {K : Type} [LinearOrderedField K]

/-- The identity matrix (`new Matrix4()`). -/
def Matrix4.identity : Matrix4 K :=
  ⟨1, 0, 0, 0, 0, 1, 0, 0, 0, 0, 1, 0⟩

/-- `new Matrix4().makeTranslation(x, y, z)`. -/
def Matrix4.makeTranslation (x y z : K) : Matrix4 K :=
  ⟨1, 0, 0, x, 0, 1, 0, y, 0, 0, 1, z⟩

/-- `a.multiply(b)`: the matrix product `a * b` on affine matrices. -/
def Matrix4.multiply (a b : Matrix4 K) : Matrix4 K :=
  ⟨a.n11 * b.n11 + a.n12 * b.n21 + a.n13 * b.n31,
   a.n11 * b.n12 + a.n12 * b.n22 + a.n13 * b.n32,
   a.n11 * b.n13 + a.n12 * b.n23 + a.n13 * b.n33,
   a.n11 * b.n14 + a.n12 * b.n24 + a.n13 * b.n34 + a.n14,
   a.n21 * b.n11 + a.n22 * b.n21 + a.n23 * b.n31,
   a.n21 * b.n12 + a.n22 * b.n22 + a.n23 * b.n32,
   a.n21 * b.n13 + a.n22 * b.n23 + a.n23 * b.n33,
   a.n21 * b.n14 + a.n22 * b.n24 + a.n23 * b.n34 + a.n24,
   a.n31 * b.n11 + a.n32 * b.n21 + a.n33 * b.n31,
   a.n31 * b.n12 + a.n32 * b.n22 + a.n33 * b.n32,
   a.n31 * b.n13 + a.n32 * b.n23 + a.n33 * b.n33,
   a.n31 * b.n14 + a.n32 * b.n24 + a.n33 * b.n34 + a.n34⟩

/-- The local matrix after `scale.multiplyScalar(s)` and recomposition: the
scale is the innermost factor of `T * R * S`, so the three linear columns are
multiplied by `s` and the translation column is kept. -/
def Matrix4.scaleLocal (m : Matrix4 K) (s : K) : Matrix4 K :=
  ⟨m.n11 * s, m.n12 * s, m.n13 * s, m.n14,
   m.n21 * s, m.n22 * s, m.n23 * s, m.n24,
   m.n31 * s, m.n32 * s, m.n33 * s, m.n34⟩

/-- `v.applyMatrix4(m)` for an affine matrix. -/
def Vector3.applyMatrix4 (v : Vector3 K) (m : Matrix4 K) : Vector3 K :=
  ⟨m.n11 * v.x + m.n12 * v.y + m.n13 * v.z + m.n14,
   m.n21 * v.x + m.n22 * v.y + m.n23 * v.z + m.n24,
   m.n31 * v.x + m.n32 * v.y + m.n33 * v.z + m.n34⟩

/-- `box.expandByPoint(p)`, starting possibly from the empty box. -/
def Box3.expandByPoint (box : Option (Box3 K)) (p : Vector3 K) : Option (Box3 K) :=
  match box with
  | none => some ⟨p, p⟩
  | some b =>
    some ⟨⟨Min.min b.min.x p.x, Min.min b.min.y p.y, Min.min b.min.z p.z⟩,
          ⟨Max.max b.max.x p.x, Max.max b.max.y p.y, Max.max b.max.z p.z⟩⟩

/-- `new Box3().setFromPoints(ps)`; also `geometry.computeBoundingBox()`. -/
def Box3.setFromPoints (ps : List (Vector3 K)) : Option (Box3 K) :=
  ps.foldl Box3.expandByPoint none

/-- The eight corners of a box, in the order `Box3.applyMatrix4` lists them. -/
def Box3.corners (b : Box3 K) : List (Vector3 K) :=
  [⟨b.min.x, b.min.y, b.min.z⟩, ⟨b.min.x, b.min.y, b.max.z⟩,
   ⟨b.min.x, b.max.y, b.min.z⟩, ⟨b.min.x, b.max.y, b.max.z⟩,
   ⟨b.max.x, b.min.y, b.min.z⟩, ⟨b.max.x, b.min.y, b.max.z⟩,
   ⟨b.max.x, b.max.y, b.min.z⟩, ⟨b.max.x, b.max.y, b.max.z⟩]

/-- `box.applyMatrix4(m)`: the box of the transformed corners; the empty box
is returned unchanged. -/
def Box3.applyMatrix4 (box : Option (Box3 K)) (m : Matrix4 K) : Option (Box3 K) :=
  match box with
  | none => none
  | some b => Box3.setFromPoints (b.corners.map fun p => p.applyMatrix4 m)

/-- `a.union(b)`; joining with the empty box changes nothing. -/
def Box3.union (a b : Option (Box3 K)) : Option (Box3 K) :=
  match a, b with
  | none, b => b
  | a, none => a
  | some a, some b =>
    some ⟨⟨Min.min a.min.x b.min.x, Min.min a.min.y b.min.y, Min.min a.min.z b.min.z⟩,
          ⟨Max.max a.max.x b.max.x, Max.max a.max.y b.max.y, Max.max a.max.z b.max.z⟩⟩

/-- `box.getSize(new Vector3())`. -/
def Box3.getSize (b : Box3 K) : Vector3 K :=
  ⟨b.max.x - b.min.x, b.max.y - b.min.y, b.max.z - b.min.z⟩

/-- `box.getCenter(new Vector3())`. -/
def Box3.getCenter (b : Box3 K) : Vector3 K :=
  ⟨(b.min.x + b.max.x) / 2, (b.min.y + b.max.y) / 2, (b.min.z + b.max.z) / 2⟩

/-- The longest dimension of a box: `Math.max(size.x, size.y, size.z)`. -/
def Box3.maxDim (b : Box3 K) : K :=
  Max.max (Max.max b.getSize.x b.getSize.y) b.getSize.z

mutual
/-- `box.expandByObject(object)` with up-to-date world matrices: the world
matrix of a node is its parent's world matrix times its local matrix; a node
with geometry contributes the transformed bounding box of that geometry; then
the children are visited. -/
def Box3.expandByObject (parentWorld : Matrix4 K) : Object3D K → Option (Box3 K) → Option (Box3 K)
  | .mk m g cs, box =>
    Box3.expandByChildren (parentWorld.multiply m) cs
      (Box3.union box (Box3.applyMatrix4 (Box3.setFromPoints g) (parentWorld.multiply m)))
/-- The loop of `expandByObject` over the children of a node. -/
def Box3.expandByChildren (world : Matrix4 K) : List (Object3D K) → Option (Box3 K) → Option (Box3 K)
  | [], box => box
  | c :: cs, box => Box3.expandByChildren world cs (Box3.expandByObject world c box)
end

/-- `new Box3().setFromObject(object3D)` for a node without parent. -/
def Box3.setFromObject (o : Object3D K) : Option (Box3 K) :=
  Box3.expandByObject Matrix4.identity o none

mutual
/-- The callback of `object3D.traverse` in `centerAndNormalize` at one node
other than the root: `child.applyMatrix4(translation)` premultiplies the local
matrix; the traversal then continues into the node's own children. -/
def translateNode (t : Matrix4 K) : Object3D K → Object3D K
  | .mk m g cs => .mk (t.multiply m) g (translateNodes t cs)
/-- The traversal of `centerAndNormalize` over a list of sibling nodes. -/
def translateNodes (t : Matrix4 K) : List (Object3D K) → List (Object3D K)
  | [] => []
  | c :: cs => translateNode t c :: translateNodes t cs
end

/-- `centerAndNormalize(object3D, targetSize)`: nothing happens on an empty
box; otherwise every descendant (every node the traversal reaches except the
root) is translated by minus the box centre, and the root's scale is
multiplied by `targetSize / maxDim` when `maxDim > 0`. -/
def centerAndNormalize (object3D : Object3D K) (targetSize : K) : Object3D K :=
  match Box3.setFromObject object3D with
  | none => object3D
  | some box =>
    let center := box.getCenter
    let translation := Matrix4.makeTranslation (-center.x) (-center.y) (-center.z)
    match object3D with
    | .mk m g cs =>
      let cs1 := translateNodes translation cs
      if box.maxDim > 0 then .mk (m.scaleLocal (targetSize / box.maxDim)) g cs1
      else .mk m g cs1

/-- `new Group()` holding the given children, with the identity transform. -/
def group (children : List (Object3D K)) : Object3D K :=
  .mk Matrix4.identity [] children

/-- A `Mesh` with the identity transform and the given vertex positions. -/
def mesh (vertices : List (Vector3 K)) : Object3D K :=
  .mk Matrix4.identity vertices []

end Geometry

/-- The shape `loadAny` builds for an OBJ file holding one mesh: the wrapper
group, the group returned by the loader, and the mesh.  The mesh spans the box
from `(0,0,0)` to `(2,1,1)`. -/
def nestedWrapper : Object3D ℚ :=
  group [group [mesh [⟨0, 0, 0⟩, ⟨2, 1, 1⟩]]]

/-- The same mesh placed directly under the wrapper. -/
def flatWrapper : Object3D ℚ :=
  group [mesh [⟨0, 0, 0⟩, ⟨2, 1, 1⟩]]

/-! ## Strings: the JavaScript string operations `loadAny` uses

URLs are `String`s; the helpers work on their characters.  URLs are taken to
be ASCII text: lower-casing and the `i` flag of the capture pattern are
modelled on the letters `A`-`Z`. -/

/-- `s.toLowerCase()`. -/
def toLowerCase (s : List Char) : List Char :=
  s.map Char.toLower

/-- `s.split(sep)` for a one-character separator: the pieces between the
separators, in order (one piece, the whole text, when there is none). -/
def split (sep : Char) : List Char → List (List Char)
  | [] => [[]]
  | c :: cs =>
    if c = sep then [] :: split sep cs
    else
      match split sep cs with
      | [] => [[c]]
      | piece :: pieces => (c :: piece) :: pieces

/-- `pieces.pop()`: the last piece. -/
def pop (pieces : List (List Char)) : List Char :=
  pieces.getLast?.getD []

/-- `s.includes(pat)`: `pat` occurs in `s` as a contiguous run. -/
def includes (pat : List Char) : List Char → Bool
  | [] => pat.isEmpty
  | c :: cs => pat.isPrefixOf (c :: cs) || includes pat cs

/-- `s.replace(pat, rep)` with a string pattern: the first occurrence of
`pat` is replaced, the text is returned unchanged when there is none. -/
def replace (pat rep : List Char) : List Char → List Char
  | [] => if pat.isEmpty then rep else []
  | c :: cs =>
    if pat.isPrefixOf (c :: cs) then rep ++ (c :: cs).drop pat.length
    else c :: replace pat rep cs

/-- `isLumaCapture(url)`: the pattern `/lumalabs\.ai\/capture\//i` matches
somewhere in `url`. -/
def isLumaCapture (url : String) : Bool :=
  includes "lumalabs.ai/capture/".toList (toLowerCase url.toList)

/-- The `lower` of `loadAny`: `url.toLowerCase()`. -/
def lower (url : String) : String :=
  String.mk (toLowerCase url.toList)

/-- The `ext` of `loadAny`: `lower.split('.').pop()`. -/
def ext (url : String) : String :=
  String.mk (pop (split '.' (lower url).toList))

/-- The `normalizedExt` of `loadAny`: `ext === 'glt' ? 'gltf' : ext`. -/
def normalizedExt (url : String) : String :=
  if ext url = "glt" then "gltf" else ext url

/-- The `mtlUrl` of the OBJ branch: `url.replace('.obj', '.mtl')`. -/
def mtlUrl (url : String) : String :=
  String.mk (replace ".obj".toList ".mtl".toList url.toList)

/-! ## Viewer state: scene, active object, backdrop, splat preset -/

/-- The format loaders `loadAny` can call. -/
inductive Loader where
  | gltf
  | fbx
  | obj
  | mtl
  | stl
  | ply
deriving DecidableEq

/-- What a loader call ends with: `res(payload)` or `rej(reason)`.  An
absent payload is an undefined result (for glTF: a result without scene). -/
inductive Outcome where
  | resolved (payload : Option Nat)
  | rejected (reason : String)
deriving DecidableEq

/-- The failures the `catch` of `loadAny` can receive. -/
inductive LoadError where
  | unsupportedFormat (ext : String)
  | noSceneFound
  | typeError
  | loaderFailed (reason : String)
deriving DecidableEq

/-- The `e.message` of the two errors `loadAny` constructs itself. -/
def LoadError.message : LoadError → String
  | .unsupportedFormat e => "Unsupported format: " ++ e
  | .noSceneFound => "Model loaded but no scene/object found"
  | .typeError => "TypeError"
  | .loaderFailed reason => reason

/-- The text of the alert shown for a failure. -/
def alertText (e : LoadError) : String :=
  "Failed to load model: " ++ e.message

/-- The literal per-file rotation corrections of `loadAny`. -/
inductive RotationFix where
  | unchanged
  | beehive
  | monkey
deriving DecidableEq

/-- The loaded asset before wrapping: the object a loader returned (with the
rotation correction applied to it), or the mesh built around a geometry. -/
inductive Asset where
  | object (id : Nat) (fix : RotationFix)
  | mesh (geometry : Option Nat)
deriving DecidableEq

/-- The nodes `loadAny` adds to the scene: a splat built from its source URL,
or the `ModelWrapper` group around a loaded asset. -/
inductive SceneNode where
  | splat (source : String)
  | wrapper (loaded : Asset)
deriving DecidableEq

/-- The vertex-shader override installed on a splat. -/
inductive ShaderHook where
  | heightCutoff (threshold : ℚ)
  | passThrough
deriving DecidableEq

/-- One entry of the `states` table. -/
structure Preset where
  mask : Nat
  bg : Option Nat
  text : String
deriving DecidableEq

/-- `LumaSplatsSemantics.FOREGROUND` (a bit flag of the splat library). -/
def FOREGROUND : Nat := 1

/-- `LumaSplatsSemantics.BACKGROUND` (a bit flag of the splat library). -/
def BACKGROUND : Nat := 2

/-- The `states` table. -/
def states : List Preset :=
  [⟨FOREGROUND ||| BACKGROUND, some 0x000000, "Remove background"⟩,
   ⟨FOREGROUND, none, "Background"⟩]

/-- The mutable state of the page that loading and the preset toggle touch.
`semanticsMask` and `shaderHooks` are the properties of the active splat;
`disposed` lists the nodes whose resources `removeCurrent` released. -/
structure Viewer where
  scene : List SceneNode
  currentObject : Option SceneNode
  currentIsSplat : Bool
  stateIndex : Nat
  clearColor : Nat
  clearAlpha : Nat
  sceneBackground : Option Nat
  bgHidden : Bool
  bgText : String
  loadingShown : Bool
  semanticsMask : Option Nat
  shaderHooks : Option ShaderHook
  disposed : List SceneNode
deriving DecidableEq

/-- The state the script sets up before its first `loadAny`: no object,
`stateIndex = 1`, clear colour `0x111111` opaque, scene background `0x111`.
The toggle's text and class come from the page. -/
def Viewer.initial (bgHidden : Bool) (bgText : String) : Viewer :=
  ⟨[], none, false, 1, 0x111111, 1, some 0x111, bgHidden, bgText, false, none, none, []⟩

/-- `removeCurrent()`: the active object leaves the scene and is disposed of
(with it go its mask and shader hooks); nothing happens without one. -/
def removeCurrent (v : Viewer) : Viewer :=
  match v.currentObject with
  | none => v
  | some o =>
    { v with
      scene := v.scene.erase o
      disposed := v.disposed ++ [o]
      semanticsMask := none
      shaderHooks := none
      currentObject := none
      currentIsSplat := false }

/-- `MODEL_1` of `applyStateForCurrent`. -/
def MODEL_1 : String := "https://lumalabs.ai/capture/afeec738-2a49-42bd-bd0b-fde2fd215d20"

/-- `MODEL_2` of `applyStateForCurrent`. -/
def MODEL_2 : String := "https://lumalabs.ai/capture/8bb65c41-db69-4096-ad66-413283039e3b"

/-- `MODEL_3` of `applyStateForCurrent`. -/
def MODEL_3 : String := "https://lumalabs.ai/capture/bbd433e8-9cad-4546-8be1-3f13d99f9584"

/-- `m1Height`. -/
def m1Height : ℚ := 3 / 10

/-- `m2Height`. -/
def m2Height : ℚ := 8 / 10

/-- The override `applyStateForCurrent` selects from the source URL and
`bgOn`. -/
def selectShaderHook (sourceUrl : String) (bgOn : Bool) : ShaderHook :=
  if sourceUrl = MODEL_1 ∧ bgOn = false then .heightCutoff m1Height
  else if sourceUrl = MODEL_2 ∧ bgOn = true then .heightCutoff m2Height
  else .passThrough

/-- `applyStateForCurrent(sourceUrl)`.  `none` is the `TypeError` raised when
`states[stateIndex]` is undefined, before anything is changed. -/
def applyStateForCurrent (sourceUrl : String) (v : Viewer) : Option Viewer :=
  match states[v.stateIndex]? with
  | none => none
  | some s =>
    let v1 := { v with
      clearColor := s.bg.getD 0x000000
      clearAlpha := if s.bg.isSome then 1 else 0
      bgText := s.text }
    if v1.currentIsSplat = false ∨ v1.currentObject = none then some v1
    else
      some { v1 with
        semanticsMask := some s.mask
        shaderHooks := some (selectShaderHook sourceUrl s.bg.isSome) }

/-- The `source` the toggle handler passes on:
`currentIsSplat ? (currentObject?.source || '') : ''`. -/
def currentSource (v : Viewer) : String :=
  if v.currentIsSplat then
    match v.currentObject with
    | some (.splat source) => source
    | _ => ""
  else ""

/-- The click handler of the background toggle. -/
def bgToggleClick (v : Viewer) : Viewer :=
  let v1 := { v with stateIndex := (v.stateIndex + 1) % states.length }
  (applyStateForCurrent (currentSource v1) v1).getD v1

/-! ## Loading: `loadAny` as a start step and its continuations

`loadAny` runs up to its first `await`, is resumed when a loader settles, and
leaves a zero-delay timer behind on success.  `Step` is what one such piece of
execution does: the new page state, the loader calls and reports it made, and
what the load waits for next.  The placement in front of the headset
(`inXR && currentObject`) and the camera framing write only the VR and camera
variables, which are not part of `Viewer`. -/

/-- The observable calls of one piece of `loadAny`. -/
inductive Effect where
  | request (loader : Loader) (url : String)
  | consoleError (e : LoadError)
  | alert (e : LoadError)
deriving DecidableEq

/-- Where a call of `loadAny` stands. -/
inductive Pending where
  | awaitMtl (url : String)
  | awaitModel (loader : Loader) (url : String)
  | deferred (url : String) (isSplat : Bool)
  | finished
  | failed
deriving DecidableEq

/-- The result of one piece of execution of `loadAny`. -/
structure Step where
  viewer : Viewer
  effects : List Effect
  next : Pending
deriving DecidableEq

/-- The `catch` block of `loadAny`. -/
def failLoad (v : Viewer) (e : LoadError) : Step :=
  ⟨{ v with loadingShown := false }, [.consoleError e, .alert e], .failed⟩

/-- `loadAny(url)` up to its first `await` (or to its end, for a capture URL
and for an unsupported extension). -/
def loadAny (url : String) (v : Viewer) : Step :=
  let v1 := { removeCurrent v with loadingShown := true }
  if isLumaCapture url then
    let splat := SceneNode.splat url
    ⟨{ v1 with
        scene := v1.scene ++ [splat]
        currentObject := some splat
        currentIsSplat := true
        semanticsMask := none
        shaderHooks := none
        bgHidden := false
        loadingShown := false },
      [], .deferred url true⟩
  else if normalizedExt url = "gltf" ∨ normalizedExt url = "glb" then
    ⟨v1, [.request .gltf url], .awaitModel .gltf url⟩
  else if normalizedExt url = "fbx" then
    ⟨v1, [.request .fbx url], .awaitModel .fbx url⟩
  else if normalizedExt url = "obj" then
    ⟨v1, [.request .mtl (mtlUrl url)], .awaitMtl url⟩
  else if normalizedExt url = "stl" then
    ⟨v1, [.request .stl url], .awaitModel .stl url⟩
  else if normalizedExt url = "ply" then
    ⟨v1, [.request .ply url], .awaitModel .ply url⟩
  else failLoad v1 (.unsupportedFormat (ext url))

/-- The glTF branch tests the name for the beehive model. -/
def isBeehive (url : String) : Bool :=
  includes "bienenkasten.glb".toList (lower url).toList
    || includes "beehive".toList (lower url).toList

/-- The OBJ branch tests the name for the monkey model. -/
def isMonkey (url : String) : Bool :=
  includes "affe_lowpoly_tris.obj".toList (lower url).toList
    || includes "affe".toList (lower url).toList
    || includes "monkey".toList (lower url).toList

/-- The `loaded` value a branch of `loadAny` builds from what its loader
returned; an error is the exception the branch raises (a `TypeError` where
the branch reads a member of an undefined result: `loaded.rotation`,
`geom.computeVertexNormals`). -/
def loadedOf (loader : Loader) (url : String) (payload : Option Nat) :
    Except LoadError Asset :=
  match loader, payload with
  | .gltf, some id => .ok (.object id (if isBeehive url then .beehive else .unchanged))
  | .gltf, none => if isBeehive url then .error .typeError else .error .noSceneFound
  | .obj, some id => .ok (.object id (if isMonkey url then .monkey else .unchanged))
  | .obj, none => if isMonkey url then .error .typeError else .error .noSceneFound
  | .fbx, some id => .ok (.object id .unchanged)
  | .fbx, none => .error .noSceneFound
  | .mtl, some id => .ok (.object id .unchanged)
  | .mtl, none => .error .noSceneFound
  | .stl, geometry => .ok (.mesh geometry)
  | .ply, some geometry => .ok (.mesh (some geometry))
  | .ply, none => .error .typeError

/-- The rest of the `try` block once `loaded` is there: solid backdrop, hidden
toggle, the wrapper added to the scene and made the active object; the timer
callback is left pending. -/
def completeLoad (url : String) (loaded : Asset) (v : Viewer) : Step :=
  ⟨{ v with
      bgHidden := true
      clearColor := 0x000000
      clearAlpha := 1
      sceneBackground := none
      scene := v.scene ++ [.wrapper loaded]
      currentObject := some (.wrapper loaded)
      currentIsSplat := false },
    [], .deferred url false⟩

/-- `loadAny` resumed by the settling of the loader it awaits.  After the
material file, `materials.preload()` raises a `TypeError` on an undefined
result; otherwise the OBJ file is requested. -/
def resume (k : Pending) (o : Outcome) (v : Viewer) : Step :=
  match k, o with
  | .awaitMtl url, .resolved (some _) => ⟨v, [.request .obj url], .awaitModel .obj url⟩
  | .awaitMtl _, .resolved none => failLoad v .typeError
  | .awaitMtl _, .rejected reason => failLoad v (.loaderFailed reason)
  | .awaitModel loader url, .resolved payload =>
    match loadedOf loader url payload with
    | .ok loaded => completeLoad url loaded v
    | .error e => failLoad v e
  | .awaitModel _ _, .rejected reason => failLoad v (.loaderFailed reason)
  | k, _ => ⟨v, [], k⟩

/-- The timer callback `loadAny` leaves behind: `applyStateForCurrent(url)`,
then (on the loader path) the loading indicator is hidden.  A `TypeError` in
`applyStateForCurrent` ends the callback. -/
def runDeferred (url : String) (isSplat : Bool) (v : Viewer) : Viewer :=
  match applyStateForCurrent url v with
  | none => v
  | some v1 => if isSplat then v1 else { v1 with loadingShown := false }

/-- One load run to its end without anything else in between: the loaders
settle with the given outcomes, in order, and then the timer fires. -/
def settleAll : List Outcome → Step → Step
  | [], st =>
    match st.next with
    | .deferred url isSplat => ⟨runDeferred url isSplat st.viewer, st.effects, .finished⟩
    | _ => st
  | o :: os, st =>
    match st.next with
    | .awaitMtl url =>
      settleAll os
        ⟨(resume (.awaitMtl url) o st.viewer).viewer,
         st.effects ++ (resume (.awaitMtl url) o st.viewer).effects,
         (resume (.awaitMtl url) o st.viewer).next⟩
    | .awaitModel loader url =>
      settleAll os
        ⟨(resume (.awaitModel loader url) o st.viewer).viewer,
         st.effects ++ (resume (.awaitModel loader url) o st.viewer).effects,
         (resume (.awaitModel loader url) o st.viewer).next⟩
    | _ => settleAll os st

/-- `loadAny(url)` from call to completion, with the outcomes of its loader
calls supplied in order. -/
def runLoad (url : String) (outcomes : List Outcome) (v : Viewer) : Step :=
  settleAll outcomes (loadAny url v)

/-! ## Interleaved loads -/

/-- The page with the calls of `loadAny` made so far, numbered from 0. -/
structure App where
  viewer : Viewer
  loads : List Pending
deriving DecidableEq

/-- What the event loop can run next. -/
inductive Event where
  | start (url : String)
  | settle (load : Nat) (o : Outcome)
  | timer (load : Nat)
  | toggle
deriving DecidableEq

/-- One turn of the event loop. -/
def App.step (a : App) : Event → App
  | .start url => ⟨(loadAny url a.viewer).viewer, a.loads ++ [(loadAny url a.viewer).next]⟩
  | .settle i o =>
    match a.loads[i]? with
    | some (.awaitMtl url) =>
      ⟨(resume (.awaitMtl url) o a.viewer).viewer,
       a.loads.set i (resume (.awaitMtl url) o a.viewer).next⟩
    | some (.awaitModel loader url) =>
      ⟨(resume (.awaitModel loader url) o a.viewer).viewer,
       a.loads.set i (resume (.awaitModel loader url) o a.viewer).next⟩
    | _ => a
  | .timer i =>
    match a.loads[i]? with
    | some (.deferred url isSplat) =>
      ⟨runDeferred url isSplat a.viewer, a.loads.set i .finished⟩
    | _ => a
  | .toggle => ⟨bgToggleClick a.viewer, a.loads⟩

/-- A sequence of turns. -/
def App.run (a : App) (es : List Event) : App :=
  es.foldl App.step a

/-- A load that waits for a loader to settle. -/
def Pending.awaiting : Pending → Bool
  | .awaitMtl _ => true
  | .awaitModel _ _ => true
  | _ => false

/-- A load on the loader path that has attached its wrapper. -/
def Pending.completed : Pending → Bool
  | .deferred _ false => true
  | .finished => true
  | _ => false

/-- A turn in which no load starts and no loader fails: a loader resolves
with a result, a timer fires, or the toggle is clicked. -/
def Event.successful : Event → Bool
  | .settle _ (.resolved (some _)) => true
  | .timer _ => true
  | .toggle => true
  | _ => false

/-- The extensions `loadAny` sends to a format loader. -/
def loaderExtensions : List String :=
  ["gltf", "glt", "glb", "fbx", "obj", "stl", "ply"]

/-- The state of the overlapping-load scenario of the specification:
`model.obj` is started, `model2.glb` is started before anything of the first
load has resolved, then both resolve (first load first) and the timers run. -/
def overlappingScenario : App :=
  (App.mk (Viewer.initial true "") []).run
    [.start "model.obj", .start "model2.glb",
     .settle 0 (.resolved (some 0)), .settle 0 (.resolved (some 1)),
     .settle 1 (.resolved (some 2)), .timer 0, .timer 1]

/-- The invariant of a page on which only loader-path loads are under way and
none has failed: the scene holds one wrapper per completed load and nothing
else, and the active object is the wrapper attached last. -/
structure App.Attached (a : App) : Prop where
  loads_ok : ∀ k ∈ a.loads, k.awaiting = true ∨ k.completed = true
  wrappers : ∀ n ∈ a.viewer.scene, ∃ x, n = SceneNode.wrapper x
  count : a.viewer.scene.length = a.loads.countP Pending.completed
  active : a.viewer.currentObject = a.viewer.scene.getLast?

/-! ## VR interaction: targets, smoothing, placement

The numeric state of the VR controller.  `hasObject` stands for
`currentObject` being set; `objPosition` and `objRotation` are the position
and the Euler rotation of that object.  The headset pose and the library's
trigonometry are inputs. -/

/-- The members of `Math` the VR code uses. -/
structure JSMath (K : Type) where
  PI : K
  sin : K → K
  cos : K → K

/-- What `placeObjectInFrontOfCamera` reads off the XR camera: its world
position, the vector `(0, 0, -1)` turned by its orientation, and the Y angle
of that orientation in `YXZ` order. -/
structure CameraPose (K : Type) where
  position : Vector3 K
  forward : Vector3 K
  yaw : K

/-- The VR variables of the script. -/
structure VRState (K : Type) where
  inXR : Bool
  hasObject : Bool
  active : Bool
  lastPos : Vector3 K
  controller : Option (Fin 2)
  yawTarget : K
  pitchTarget : K
  vrYaw : K
  vrPitch : K
  distanceTarget : K
  vrDistance : K
  entryYaw : K
  objPosition : Vector3 K
  objRotation : Vector3 K

/-- What one animation frame reads: the positions of the two controllers, the
gamepad axes of the session's input sources (no session: `none`; a source
without gamepad or axes: `none`), and the headset position. -/
structure FrameInput (K : Type) where
  controller0 : Vector3 K
  controller1 : Vector3 K
  session : Option (List (Option (List K)))
  camPos : Vector3 K

/-- The handlers and callbacks that touch the VR variables. -/
inductive VREvent (K : Type) where
  | sessionStart (pose : CameraPose K)
  | sessionEnd
  | selectStart (ctrl : Fin 2) (position : Vector3 K)
  | selectEnd
  | frame (input : FrameInput K)
  | objectRemoved
  | objectLoaded (pose : CameraPose K)

section VR

variable {K : Type} [LinearOrderedField K]

/-- `ROT_SENS = 1.6`. -/
def ROT_SENS : K := 16 / 10

/-- `MAX_PITCH = Math.PI * 0.49`. -/
def MAX_PITCH (m : JSMath K) : K := m.PI * (49 / 100)

/-- `SMOOTH = 0.18`. -/
def SMOOTH : K := 18 / 100

/-- `MIN_DIST = 0.3`. -/
def MIN_DIST : K := 3 / 10

/-- `MAX_DIST = 3.5`. -/
def MAX_DIST : K := 35 / 10

/-- `DIST_SMOOTH = 0.18`. -/
def DIST_SMOOTH : K := 18 / 100

/-- `STICK_DIST_SENS = 0.025`. -/
def STICK_DIST_SENS : K := 25 / 1000

/-- The deadzone `DZ = 0.15` of `getThumbstickY`. -/
def DZ : K := 15 / 100

/-- The script's variables as it declares them. -/
def VRState.initial : VRState K :=
  { inXR := false, hasObject := false, active := false, lastPos := ⟨0, 0, 0⟩,
    controller := none, yawTarget := 0, pitchTarget := 0, vrYaw := 0, vrPitch := 0,
    distanceTarget := 1, vrDistance := 1, entryYaw := 0,
    objPosition := ⟨0, 0, 0⟩, objRotation := ⟨0, 0, 0⟩ }

/-- `placeObjectInFrontOfCamera(obj, distance)`. -/
def placeObjectInFrontOfCamera (pose : CameraPose K) (distance : K) (s : VRState K) :
    VRState K :=
  { s with
    objPosition := ⟨pose.position.x + pose.forward.x * distance,
                    pose.position.y + pose.forward.y * distance,
                    pose.position.z + pose.forward.z * distance⟩
    objRotation := ⟨0, pose.yaw, 0⟩
    yawTarget := 0
    pitchTarget := 0
    vrYaw := 0
    vrPitch := 0
    distanceTarget := distance
    vrDistance := distance
    entryYaw := pose.yaw }

/-- `beginRotateWithController(ctrl)`, with the controller's position. -/
def beginRotateWithController (ctrl : Fin 2) (position : Vector3 K) (s : VRState K) :
    VRState K :=
  { s with active := true, controller := some ctrl, lastPos := position }

/-- `endRotateWithController()`. -/
def endRotateWithController (s : VRState K) : VRState K :=
  { s with active := false, controller := none }

/-- `updateControllerRotation()`, with the positions of the two controllers. -/
def updateControllerRotation (m : JSMath K) (controller0 controller1 : Vector3 K)
    (s : VRState K) : VRState K :=
  if s.inXR = false ∨ s.active = false ∨ s.hasObject = false then s
  else
    match s.controller with
    | none => s
    | some ctrl =>
      let currPos := if ctrl = 0 then controller0 else controller1
      let deltaX := currPos.x - s.lastPos.x
      let deltaY := currPos.y - s.lastPos.y
      { s with
        yawTarget := s.yawTarget + deltaX * ROT_SENS
        pitchTarget :=
          Max.max (-(MAX_PITCH m)) (Min.min (MAX_PITCH m) (s.pitchTarget - deltaY * ROT_SENS))
        lastPos := currPos }

/-- The `candidates` of one input source: `axes[1]`, then `axes[3]` when there
are four axes. -/
def candidates (axes : List K) : List K :=
  (if 2 ≤ axes.length then [axes.getD 1 0] else [])
    ++ (if 4 ≤ axes.length then [axes.getD 3 0] else [])

/-- The `localY` of one input source: the reduction of the candidates, from
0, keeping the value of strictly larger magnitude. -/
def localY (axes : List K) : K :=
  (candidates axes).foldl (fun best v => if |v| > |best| then v else best) 0

/-- The loop of `getThumbstickY` over the input sources, from the current
`y`. -/
def thumbstickLoop : List (Option (List K)) → K → K
  | [], y => y
  | none :: srcs, y => thumbstickLoop srcs y
  | some axes :: srcs, y =>
    if axes.length < 2 then thumbstickLoop srcs y
    else if |localY axes| > |y| ∧ |localY axes| > DZ then thumbstickLoop srcs (localY axes)
    else thumbstickLoop srcs y

/-- `getThumbstickY()`. -/
def getThumbstickY (session : Option (List (Option (List K)))) : K :=
  match session with
  | none => 0
  | some inputSources => thumbstickLoop inputSources 0

/-- One smoothing assignment of the animation loop:
`x += (target - x) * SMOOTH`. -/
def smooth (x target : K) : K :=
  x + (target - x) * SMOOTH

/-- The thumbstick part of the animation loop: the new `distanceTarget`. -/
def stickDistance (stickY distanceTarget : K) : K :=
  if stickY ≠ 0 then
    Max.max MIN_DIST (Min.min MAX_DIST (distanceTarget + stickY * STICK_DIST_SENS))
  else distanceTarget

/-- The callback of `setAnimationLoop` on the VR variables; outside VR it only
updates the orbit controls. -/
def animationFrame (m : JSMath K) (input : FrameInput K) (s : VRState K) : VRState K :=
  if s.inXR then
    let s1 := updateControllerRotation m input.controller0 input.controller1 s
    let vrYaw := smooth s1.vrYaw s1.yawTarget
    let vrPitch := smooth s1.vrPitch s1.pitchTarget
    let distanceTarget := stickDistance (getThumbstickY input.session) s1.distanceTarget
    let vrDistance := s1.vrDistance + (distanceTarget - s1.vrDistance) * DIST_SMOOTH
    { s1 with
      vrYaw := vrYaw
      vrPitch := vrPitch
      distanceTarget := distanceTarget
      vrDistance := vrDistance
      objRotation := if s1.hasObject then ⟨vrPitch, vrYaw, 0⟩ else s1.objRotation
      objPosition :=
        if s1.hasObject then
          ⟨input.camPos.x + m.sin s1.entryYaw * vrDistance,
           input.camPos.y + 0 * vrDistance,
           input.camPos.z + -(m.cos s1.entryYaw) * vrDistance⟩
        else s1.objPosition }
  else s

/-- The `sessionstart` handler on the VR variables. -/
def sessionStart (pose : CameraPose K) (s : VRState K) : VRState K :=
  let s1 := { s with inXR := true, yawTarget := 0, pitchTarget := 0, vrYaw := 0, vrPitch := 0 }
  if s1.hasObject then placeObjectInFrontOfCamera pose 1 s1 else s1

/-- The `sessionend` handler on the VR variables. -/
def sessionEnd (s : VRState K) : VRState K :=
  endRotateWithController { s with inXR := false }

/-- The VR side of a finished load: the new object sits at the origin and,
when in VR, is placed in front of the headset. -/
def objectLoaded (pose : CameraPose K) (s : VRState K) : VRState K :=
  let s1 := { s with hasObject := true, objPosition := ⟨0, 0, 0⟩, objRotation := ⟨0, 0, 0⟩ }
  if s1.inXR then placeObjectInFrontOfCamera pose 1 s1 else s1

/-- One handler or callback. -/
def VRState.step (m : JSMath K) (s : VRState K) : VREvent K → VRState K
  | .sessionStart pose => sessionStart pose s
  | .sessionEnd => sessionEnd s
  | .selectStart ctrl position => beginRotateWithController ctrl position s
  | .selectEnd => endRotateWithController s
  | .frame input => animationFrame m input s
  | .objectRemoved => { s with hasObject := false }
  | .objectLoaded pose => objectLoaded pose s

/-- A sequence of handlers and callbacks. -/
def VRState.run (m : JSMath K) (s : VRState K) (es : List (VREvent K)) : VRState K :=
  es.foldl (VRState.step m) s

/-- The remaining gap of the smoothed yaw to its target. -/
def yawGap (s : VRState K) : K := s.yawTarget - s.vrYaw

/-- The remaining gap of the smoothed pitch to its target. -/
def pitchGap (s : VRState K) : K := s.pitchTarget - s.vrPitch

/-- The remaining gap of the smoothed distance to its target. -/
def distanceGap (s : VRState K) : K := s.distanceTarget - s.vrDistance

end VR

/-- A `Math` over the rationals for evaluating the VR code: `PI` is
approximated and the trigonometry is that of a zero entry yaw. -/
def sampleMath : JSMath ℚ :=
  ⟨22 / 7, fun _ => 0, fun _ => 1⟩

/-- In VR, no grab, targets away from the smoothed values. -/
def idleState : VRState ℚ :=
  { (VRState.initial : VRState ℚ) with
    inXR := true, hasObject := true, yawTarget := 1, pitchTarget := -1 / 2, distanceTarget := 2 }

/-- A frame whose only gamepad has its sticks inside the deadzone. -/
def restInput : FrameInput ℚ :=
  ⟨⟨0, 0, 0⟩, ⟨0, 0, 0⟩, some [some [0, 1 / 10, 0, -1 / 10]], ⟨0, 0, 0⟩⟩


/-- A frame in which the left stick is pushed fully (`axes[1] = 1`). -/
def pushInput : FrameInput ℚ :=
  ⟨⟨0, 0, 0⟩, ⟨0, 0, 0⟩, some [some [0, 1]], ⟨0, 0, 0⟩⟩

/-- The three variables the animation loop smooths towards a target. -/
inductive Smoothed where
  | yaw
  | pitch
  | distance
deriving DecidableEq

section SmoothedVariables

variable {K : Type} [LinearOrderedField K]

/-- The target of a smoothed variable: `yawTarget`, `pitchTarget`,
`distanceTarget`. -/
def Smoothed.target : Smoothed → VRState K → K
  | .yaw, s => s.yawTarget
  | .pitch, s => s.pitchTarget
  | .distance, s => s.distanceTarget

/-- The smoothed variable itself: `vrYaw`, `vrPitch`, `vrDistance`. -/
def Smoothed.value : Smoothed → VRState K → K
  | .yaw, s => s.vrYaw
  | .pitch, s => s.vrPitch
  | .distance, s => s.vrDistance

/-- The gap `target - smoothed value` of a smoothed variable. -/
def Smoothed.gap (c : Smoothed) (s : VRState K) : K :=
  c.target s - c.value s

end SmoothedVariables

/-- A headset 1.6 m above the floor at `(1, 1.6, 2)`, looking straight ahead
along `-z` (heading 0). -/
def samplePose : CameraPose ℚ :=
  ⟨⟨1, 8 / 5, 2⟩, ⟨0, 0, -1⟩, 0⟩

section AxisValues

variable {K : Type}

/-- The vertical-axis values of a list of input sources, in the words of the
specification: `axes[1]` of every source that has it (at least two axes) and
`axes[3]` of every source that has it (at least four axes).  A source without
gamepad axes has none. -/
def verticalAxisValues : List (Option (List K)) → List K
  | [] => []
  | none :: srcs => verticalAxisValues srcs
  | some axes :: srcs => axes[1]?.toList ++ axes[3]?.toList ++ verticalAxisValues srcs

/-- The vertical-axis values of a session; none without a session. -/
def sessionAxisValues (session : Option (List (Option (List K)))) : List K :=
  match session with
  | none => []
  | some inputSources => verticalAxisValues inputSources

end AxisValues

/-! ## Theorems: geometry -/

/-- C1 (evaluation at the failing input): for the wrapper of a group of one
mesh, whose world box is finite with longest dimension 2, the box after
`centerAndNormalize(wrapper, 1.5)` has longest dimension 1.5 but its centre is
`(-3/4, -3/8, -3/8)`, not the origin: the mesh was translated twice, once
through its parent and once itself. -/
theorem centerAndNormalize_nested_off_centre :
    (Box3.setFromObject nestedWrapper).map Box3.maxDim = some 2 ∧
    (Box3.setFromObject (centerAndNormalize nestedWrapper (3 / 2))).map Box3.maxDim
      = some (3 / 2) ∧
    (Box3.setFromObject (centerAndNormalize nestedWrapper (3 / 2))).map Box3.getCenter
      = some ⟨-3 / 4, -3 / 8, -3 / 8⟩ ∧
    (Box3.setFromObject (centerAndNormalize nestedWrapper (3 / 2))).map Box3.getCenter
      ≠ some ⟨0, 0, 0⟩ := by
  decide!

/-- With the mesh directly under the wrapper the same call does centre it. -/
theorem centerAndNormalize_flat_centred :
    (Box3.setFromObject (centerAndNormalize flatWrapper (3 / 2))).map Box3.maxDim
      = some (3 / 2) ∧
    (Box3.setFromObject (centerAndNormalize flatWrapper (3 / 2))).map Box3.getCenter
      = some ⟨0, 0, 0⟩ := by
  decide!


/-! ## Theorems: loader dispatch -/

theorem loadedOf_error_ne_unsupported (loader : Loader) (url : String) (payload : Option Nat)
    (e : LoadError) (x : String) (h : loadedOf loader url payload = .error e) :
    e ≠ .unsupportedFormat x := by
  cases loader <;> cases payload <;> simp only [loadedOf] at h <;>
    first
    | (split at h <;> cases h <;> simp)
    | (cases h; simp)
    | cases h

theorem resume_no_unsupported (k : Pending) (o : Outcome) (v : Viewer) (x : String) :
    Effect.alert (.unsupportedFormat x) ∉ (resume k o v).effects := by
  cases k <;> cases o <;> simp [resume, failLoad, completeLoad]
  case awaitMtl.resolved url payload =>
    cases payload <;> simp
  case awaitModel.resolved loader url payload =>
    cases h : loadedOf loader url payload with
    | ok a => simp
    | error e =>
      have := loadedOf_error_ne_unsupported loader url payload e x h
      simp only [List.mem_cons, Effect.alert.injEq, List.mem_singleton, not_or]
      exact ⟨by simp, fun hx => this hx.symm, by simp⟩

theorem settleAll_unsupported (os : List Outcome) (st : Step) (x : String) :
    Effect.alert (.unsupportedFormat x) ∈ (settleAll os st).effects ↔
      Effect.alert (.unsupportedFormat x) ∈ st.effects := by
  induction os generalizing st with
  | nil => unfold settleAll; split <;> simp
  | cons o os ih =>
    unfold settleAll
    split
    · rw [ih]; simp [resume_no_unsupported]
    · rw [ih]; simp [resume_no_unsupported]
    · exact ih st

theorem settleAll_failed (os : List Outcome) (st : Step) (h : st.next = .failed) :
    settleAll os st = st := by
  induction os with
  | nil => unfold settleAll; rw [h]
  | cons o os ih => unfold settleAll; rw [h]; simpa using ih

theorem split_shape (sep : Char) (s : List Char) :
    ∃ first rest, split sep s = first :: rest ∧ sep ∉ pop (first :: rest) ∧
      ((rest = [] ∧ s = first) ∨ (rest ≠ [] ∧ ∃ pre, s = pre ++ sep :: pop (first :: rest))) := by
  induction s with
  | nil => exact ⟨[], [], rfl, by simp [pop], Or.inl ⟨rfl, rfl⟩⟩
  | cons c cs ih =>
    obtain ⟨first, rest, hsplit, hsep, hshape⟩ := ih
    by_cases hc : c = sep
    · refine ⟨[], first :: rest, by simp [split, hc, hsplit], ?_, Or.inr ⟨by simp, ?_⟩⟩
      · simpa [pop, List.getLast?_cons_cons] using hsep
      · have hpop : pop ([] :: first :: rest) = pop (first :: rest) := by
          simp [pop, List.getLast?_cons_cons]
        rw [hpop]
        rcases hshape with ⟨hrest, hcs⟩ | ⟨-, pre, hpre⟩
        · refine ⟨[], ?_⟩
          subst hrest
          simp [pop, hc, hcs]
        · exact ⟨c :: pre, by rw [hpre, hc]; rfl⟩
    · refine ⟨c :: first, rest, by simp [split, hc, hsplit], ?_, ?_⟩
      · cases rest with
        | nil =>
          simp only [pop, List.getLast?_singleton, Option.getD_some, List.mem_cons, not_or] at hsep ⊢
          exact ⟨fun h => hc h.symm, hsep⟩
        | cons r rs => simpa [pop, List.getLast?_cons_cons] using hsep
      · rcases hshape with ⟨hrest, hcs⟩ | ⟨hrest, pre, hpre⟩
        · exact Or.inl ⟨hrest, by rw [hcs]⟩
        · refine Or.inr ⟨hrest, c :: pre, ?_⟩
          cases rest with
          | nil => exact absurd rfl hrest
          | cons r rs =>
            have hpop : pop ((c :: first) :: r :: rs) = pop (first :: r :: rs) := by
              simp [pop, List.getLast?_cons_cons]
            rw [hpop, hpre]; rfl

/-- The `ext` of a URL is the text after the last `.` of the lower-cased URL,
or all of it when it has no `.`. -/
theorem ext_after_last_dot (url : String) :
    '.' ∉ (ext url).toList ∧
      (((lower url).toList = (ext url).toList ∧ '.' ∉ (lower url).toList) ∨
        ∃ pre, (lower url).toList = pre ++ '.' :: (ext url).toList) := by
  obtain ⟨first, rest, hsplit, hsep, hshape⟩ := split_shape '.' (lower url).toList
  have hext : (ext url).toList = pop (first :: rest) := by
    rw [← hsplit]; rfl
  rw [hext]
  refine ⟨hsep, ?_⟩
  rcases hshape with ⟨hrest, hs⟩ | ⟨-, pre, hpre⟩
  · left
    subst hrest
    have hp : pop [first] = first := by simp [pop]
    rw [hp] at hsep ⊢
    exact ⟨hs, by rw [hs]; exact hsep⟩
  · exact Or.inr ⟨pre, hpre⟩

/-- C2: whatever the loaders would answer, `loadAny(url)` alerts an
unsupported-format failure if and only if `url` is not a capture URL and its
`ext` (the lower-cased text after the last `.`) is none of gltf, glt, glb,
fbx, obj, stl, ply; the failure then names that `ext`, its alert reads
`Failed to load model: Unsupported format: <ext>`, and the only calls made are
the console report and the alert: no loader request.  The last part pins
`ext` down: it has no `.`, and the lower-cased URL is `ext` itself (when it
has no `.`) or ends with `.` followed by `ext`. -/
theorem loadAny_unsupported_iff (url : String) (outcomes : List Outcome) (v : Viewer) :
    ((∃ x, Effect.alert (.unsupportedFormat x) ∈ (runLoad url outcomes v).effects) ↔
      (isLumaCapture url = false ∧
        ext url ∉ loaderExtensions)) ∧
    ((∃ x, Effect.alert (.unsupportedFormat x) ∈ (runLoad url outcomes v).effects) →
      (runLoad url outcomes v).effects =
        [.consoleError (.unsupportedFormat (ext url)), .alert (.unsupportedFormat (ext url))] ∧
      (∀ loader u, Effect.request loader u ∉ (runLoad url outcomes v).effects)) ∧
    alertText (.unsupportedFormat (ext url)) =
      "Failed to load model: Unsupported format: " ++ ext url ∧
    ('.' ∉ (ext url).toList ∧
      (((lower url).toList = (ext url).toList ∧ '.' ∉ (lower url).toList) ∨
        ∃ pre, (lower url).toList = pre ++ '.' :: (ext url).toList)) := by
  have key : (∃ x, Effect.alert (.unsupportedFormat x) ∈ (runLoad url outcomes v).effects) ↔
      (isLumaCapture url = false ∧
        ext url ∉ loaderExtensions) := by
    simp only [runLoad, settleAll_unsupported, loaderExtensions]
    unfold loadAny normalizedExt
    by_cases hl : isLumaCapture url = true
    · simp [hl]
    · by_cases h1 : ext url = "glt"
      · simp [hl, h1]
      · by_cases h2 : ext url = "gltf"
        · simp [hl, h2]
        · by_cases h3 : ext url = "glb"
          · simp [hl, h3]
          · by_cases h4 : ext url = "fbx"
            · simp [hl, h4]
            · by_cases h5 : ext url = "obj"
              · simp [hl, h5]
              · by_cases h6 : ext url = "stl"
                · simp [hl, h6]
                · by_cases h7 : ext url = "ply"
                  · simp [hl, h7]
                  · simp [hl, h1, h2, h3, h4, h5, h6, h7, failLoad]
  refine ⟨key, ?_, rfl, ext_after_last_dot url⟩
  intro hx
  obtain ⟨hl, hext⟩ := key.mp hx
  simp only [loaderExtensions, List.mem_cons, List.mem_singleton, not_or, List.not_mem_nil,
    or_false] at hext
  obtain ⟨h2, h1, h3, h4, h5, h6, h7⟩ := hext
  have hstart : loadAny url v =
      failLoad { removeCurrent v with loadingShown := true } (.unsupportedFormat (ext url)) := by
    unfold loadAny normalizedExt
    simp [hl, h1, h2, h3, h4, h5, h6, h7]
  have hrun : runLoad url outcomes v = loadAny url v := by
    unfold runLoad
    apply settleAll_failed
    rw [hstart]; rfl
  rw [hrun, hstart]
  simp [failLoad]

/-- C9 (evaluation at failing inputs): `Model.OBJ` and
`assets.objects/monkey.obj` are routed to the OBJ branch, and the material
URL requested first is `Model.OBJ` itself in the first case (no `.obj` in the
URL as written) and `assets.mtlects/monkey.obj` in the second (the first
`.obj`, not the final one, is replaced); for `models/Affe_lowpoly_tris.obj`
it is `models/Affe_lowpoly_tris.mtl`. -/
theorem mtlUrl_not_final_extension :
    (isLumaCapture "Model.OBJ" = false ∧ ext "Model.OBJ" = "obj" ∧
      (loadAny "Model.OBJ" (Viewer.initial true "")).effects
        = [.request .mtl "Model.OBJ"]) ∧
    (isLumaCapture "assets.objects/monkey.obj" = false ∧
      ext "assets.objects/monkey.obj" = "obj" ∧
      (loadAny "assets.objects/monkey.obj" (Viewer.initial true "")).effects
        = [.request .mtl "assets.mtlects/monkey.obj"]) ∧
    (loadAny "models/Affe_lowpoly_tris.obj" (Viewer.initial true "")).effects
      = [.request .mtl "models/Affe_lowpoly_tris.mtl"] := by
  decide

/-! ## Theorems: backdrop and splat preset -/

/-- C10 (evaluation at the failing input): the script's own first load,
`models/Affe_lowpoly_tris.obj`, with `stateIndex = 1` as declared.  When the
wrapper is attached the clear colour is black with alpha 1 and the toggle is
hidden; after the timer callback `applyStateForCurrent` the toggle is still
hidden and the colour still black, but the alpha is 0. -/
theorem nonSplat_load_alpha_zero :
    ((resume (.awaitModel .obj "models/Affe_lowpoly_tris.obj") (.resolved (some 1))
        (Viewer.initial true "")).viewer.clearAlpha = 1) ∧
    (runLoad "models/Affe_lowpoly_tris.obj" [.resolved (some 0), .resolved (some 1)]
        (Viewer.initial true "")).next = .finished ∧
    (runLoad "models/Affe_lowpoly_tris.obj" [.resolved (some 0), .resolved (some 1)]
        (Viewer.initial true "")).viewer.bgHidden = true ∧
    (runLoad "models/Affe_lowpoly_tris.obj" [.resolved (some 0), .resolved (some 1)]
        (Viewer.initial true "")).viewer.clearColor = 0x000000 ∧
    (runLoad "models/Affe_lowpoly_tris.obj" [.resolved (some 0), .resolved (some 1)]
        (Viewer.initial true "")).viewer.clearAlpha = 0 := by
  decide

theorem applyStateForCurrent_fields (src : String) (v v1 : Viewer)
    (h : applyStateForCurrent src v = some v1) :
    v.stateIndex < 2 ∧ v1.stateIndex = v.stateIndex ∧ v1.clearColor = 0 ∧
    v1.clearAlpha = (if v.stateIndex = 0 then 1 else 0) ∧
    v1.bgText = (if v.stateIndex = 0 then "Remove background" else "Background") ∧
    v1.currentIsSplat = v.currentIsSplat ∧ v1.currentObject = v.currentObject ∧
    v1.scene = v.scene ∧ v1.bgHidden = v.bgHidden := by
  unfold applyStateForCurrent at h
  rcases hidx : v.stateIndex with _ | _ | n
  · simp only [hidx, states] at h
    simp only [List.getElem?_cons_zero, Option.getD_some, Option.isSome_some, if_true] at h
    split at h <;> (cases h; simp)
  · simp only [hidx, states] at h
    simp only [zero_add, List.getElem?_cons_succ, List.getElem?_cons_zero, Option.getD_none,
      Option.isSome_none] at h
    split at h <;> (cases h; simp)
  · simp [hidx, states] at h

theorem applyStateForCurrent_isSome (src : String) (v : Viewer) (h : v.stateIndex < 2) :
    ∃ v1, applyStateForCurrent src v = some v1 := by
  unfold applyStateForCurrent
  rcases hidx : v.stateIndex with _ | _ | n
  · simp only [states, List.getElem?_cons_zero]
    split <;> exact ⟨_, rfl⟩
  · simp only [states, zero_add, List.getElem?_cons_succ, List.getElem?_cons_zero]
    split <;> exact ⟨_, rfl⟩
  · omega

theorem bgToggleClick_eq (w : Viewer) :
    ∃ w1, applyStateForCurrent
        (currentSource { w with stateIndex := (w.stateIndex + 1) % states.length })
        { w with stateIndex := (w.stateIndex + 1) % states.length } = some w1 ∧
      bgToggleClick w = w1 := by
  have hlt : (w.stateIndex + 1) % states.length < 2 := Nat.mod_lt _ (by decide)
  obtain ⟨w1, hw1⟩ := applyStateForCurrent_isSome
    (currentSource { w with stateIndex := (w.stateIndex + 1) % states.length })
    { w with stateIndex := (w.stateIndex + 1) % states.length } hlt
  exact ⟨w1, hw1, by simp [bgToggleClick, hw1]⟩

/-- C7: after `applyStateForCurrent` has applied the preset, two clicks on the
background toggle give back the preset index, the clear colour, the clear
alpha and the label; one click always changes the preset index. -/
theorem bgToggle_twice (src : String) (v v1 : Viewer)
    (h : applyStateForCurrent src v = some v1) :
    (bgToggleClick (bgToggleClick v1)).stateIndex = v1.stateIndex ∧
    (bgToggleClick (bgToggleClick v1)).clearColor = v1.clearColor ∧
    (bgToggleClick (bgToggleClick v1)).clearAlpha = v1.clearAlpha ∧
    (bgToggleClick (bgToggleClick v1)).bgText = v1.bgText ∧
    (∀ w : Viewer, (bgToggleClick w).stateIndex ≠ w.stateIndex) := by
  have hlen : states.length = 2 := rfl
  obtain ⟨hlt, hidx, hcol, halpha, htext, -⟩ := applyStateForCurrent_fields src v v1 h
  obtain ⟨a, ha, hae⟩ := bgToggleClick_eq v1
  obtain ⟨b, hb, hbe⟩ := bgToggleClick_eq a
  obtain ⟨-, haidx, -⟩ := applyStateForCurrent_fields _ _ a ha
  obtain ⟨-, hbidx, hbcol, hbalpha, hbtext, -⟩ := applyStateForCurrent_fields _ _ b hb
  simp only [hlen] at haidx hbidx hbalpha hbtext
  have hback : b.stateIndex = v1.stateIndex := by
    rw [hbidx, haidx]; omega
  rw [hae, hbe]
  refine ⟨hback, by rw [hbcol, hcol], ?_, ?_, ?_⟩
  · rw [hbalpha, halpha, ← hbidx, hback, hidx]
  · rw [hbtext, htext, ← hbidx, hback, hidx]
  · intro w
    obtain ⟨c, hc, hce⟩ := bgToggleClick_eq w
    obtain ⟨-, hcidx, -⟩ := applyStateForCurrent_fields _ _ c hc
    simp only [hlen] at hcidx
    rw [hce, hcidx]
    omega

/-- C7, at the state after the script's first load: two clicks give back the
index 1, black, alpha 0 and the label `Background`. -/
theorem bgToggle_twice_witness :
    applyStateForCurrent "" (Viewer.initial true "")
      = some { Viewer.initial true "" with clearColor := 0, clearAlpha := 0, bgText := "Background" } ∧
    (bgToggleClick (bgToggleClick
      { Viewer.initial true "" with clearColor := 0, clearAlpha := 0, bgText := "Background" })).clearAlpha
      = 0 :=
  ⟨by decide,
   (bgToggle_twice "" (Viewer.initial true "")
      { Viewer.initial true "" with clearColor := 0, clearAlpha := 0, bgText := "Background" }
      (by decide)).2.2.1⟩

theorem selectShaderHook_cases (url : String) (bgOn : Bool) :
    (selectShaderHook url bgOn = .heightCutoff (3 / 10) ↔ (url = MODEL_1 ∧ bgOn = false)) ∧
    (selectShaderHook url bgOn = .heightCutoff (8 / 10) ↔ (url = MODEL_2 ∧ bgOn = true)) ∧
    (selectShaderHook url bgOn = .passThrough ↔
      (¬ (url = MODEL_1 ∧ bgOn = false) ∧ ¬ (url = MODEL_2 ∧ bgOn = true))) := by
  have h12 : MODEL_1 ≠ MODEL_2 := by decide
  have hq : (3 / 10 : ℚ) ≠ 8 / 10 := by norm_num
  have hq2 : (8 / 10 : ℚ) ≠ 3 / 10 := by norm_num
  simp only [selectShaderHook, m1Height, m2Height]
  by_cases h1 : url = MODEL_1
  · subst h1; cases bgOn <;> simp [h12, hq, hq2]
  · by_cases h2 : url = MODEL_2
    · subst h2; cases bgOn <;> simp [h1, hq, hq2]
    · simp [h1, h2]

theorem applyStateForCurrent_splat (url : String) (v : Viewer) (o : SceneNode) (p : Preset)
    (hs : v.currentIsSplat = true) (ho : v.currentObject = some o)
    (hp : states[v.stateIndex]? = some p) :
    ∃ v1, applyStateForCurrent url v = some v1 ∧
      v1.shaderHooks = some (selectShaderHook url p.bg.isSome) ∧
      v1.semanticsMask = some p.mask := by
  unfold applyStateForCurrent
  rw [hp]
  simp [hs, ho]

/-- C8: on a splat, `applyStateForCurrent(url)` installs the height cutoff at
0.3 exactly when `url` is `MODEL_1` and the preset has no background, the
height cutoff at 0.8 exactly when `url` is `MODEL_2` and the preset has a
background, and the pass-through override in every other case. -/
theorem applyStateForCurrent_shaderHook (url : String) (v : Viewer) (o : SceneNode)
    (hs : v.currentIsSplat = true) (ho : v.currentObject = some o) (hi : v.stateIndex < 2) :
    ∃ v1 p, applyStateForCurrent url v = some v1 ∧ states[v.stateIndex]? = some p ∧
      (v1.shaderHooks = some (.heightCutoff (3 / 10)) ↔ (url = MODEL_1 ∧ p.bg = none)) ∧
      (v1.shaderHooks = some (.heightCutoff (8 / 10)) ↔ (url = MODEL_2 ∧ p.bg ≠ none)) ∧
      (v1.shaderHooks = some .passThrough ↔
        (¬ (url = MODEL_1 ∧ p.bg = none) ∧ ¬ (url = MODEL_2 ∧ p.bg ≠ none))) := by
  have hlen : v.stateIndex < states.length := hi
  have hp : states[v.stateIndex]? = some states[v.stateIndex] := List.getElem?_eq_getElem hlen
  obtain ⟨v1, hv1, hhook, -⟩ := applyStateForCurrent_splat url v o _ hs ho hp
  obtain ⟨c1, c2, c3⟩ := selectShaderHook_cases url (states[v.stateIndex]).bg.isSome
  refine ⟨v1, _, hv1, hp, ?_⟩
  rw [hhook]
  simp only [Option.some.injEq]
  have e1 : ((states[v.stateIndex]).bg.isSome = false) ↔ (states[v.stateIndex]).bg = none := by
    cases (states[v.stateIndex]).bg <;> simp
  have e2 : ((states[v.stateIndex]).bg.isSome = true) ↔ (states[v.stateIndex]).bg ≠ none := by
    cases (states[v.stateIndex]).bg <;> simp
  rw [← e1, ← e2]
  exact ⟨c1, c2, c3⟩

/-- C8, at the first known capture with the script's initial preset (index 1,
no background): the cutoff at 0.3 is installed. -/
theorem applyStateForCurrent_shaderHook_witness :
    ∃ v1 p, applyStateForCurrent MODEL_1 (loadAny MODEL_1 (Viewer.initial true "")).viewer
        = some v1 ∧
      states[(loadAny MODEL_1 (Viewer.initial true "")).viewer.stateIndex]? = some p ∧
      (v1.shaderHooks = some (.heightCutoff (3 / 10)) ↔ (MODEL_1 = MODEL_1 ∧ p.bg = none)) ∧
      (v1.shaderHooks = some (.heightCutoff (8 / 10)) ↔ (MODEL_1 = MODEL_2 ∧ p.bg ≠ none)) ∧
      (v1.shaderHooks = some .passThrough ↔
        (¬ (MODEL_1 = MODEL_1 ∧ p.bg = none) ∧ ¬ (MODEL_1 = MODEL_2 ∧ p.bg ≠ none))) :=
  applyStateForCurrent_shaderHook MODEL_1 (loadAny MODEL_1 (Viewer.initial true "")).viewer
    (.splat MODEL_1) (by decide) (by decide) (by decide)

/-! ## Theorems: interleaved loads -/

/-- C3 (counterexample): in the scenario both loads have completed, the scene
holds two wrapper nodes, not one, and the active object is the second. -/
theorem overlapping_loads_two_wrappers :
    overlappingScenario.loads = [.finished, .finished] ∧
    overlappingScenario.viewer.scene
      = [.wrapper (.object 1 .unchanged), .wrapper (.object 2 .unchanged)] ∧
    overlappingScenario.viewer.currentObject = some (.wrapper (.object 2 .unchanged)) ∧
    ¬ (∃ w, overlappingScenario.viewer.scene = [w] ∧
        overlappingScenario.viewer.currentObject = some w) := by
  refine ⟨by decide, by decide, by decide, ?_⟩
  rintro ⟨w, hw, -⟩
  have hlen : overlappingScenario.viewer.scene.length = 1 := by rw [hw]; rfl
  revert hlen
  decide

theorem Pending.not_completed_of_awaiting (k : Pending) (h : k.awaiting = true) :
    k.completed = false := by
  cases k <;> simp_all [Pending.awaiting, Pending.completed]

theorem countP_set_completed (l : List Pending) (i : Nat) (k x : Pending)
    (h : l[i]? = some k) :
    (l.set i x).countP Pending.completed + (if k.completed then 1 else 0)
      = l.countP Pending.completed + (if x.completed then 1 else 0) := by
  induction l generalizing i with
  | nil => simp at h
  | cons y ys ih =>
    cases i with
    | zero =>
      simp only [List.getElem?_cons_zero, Option.some.injEq] at h
      subst h
      simp only [List.set_cons_zero, List.countP_cons]
      omega
    | succ j =>
      simp only [List.getElem?_cons_succ] at h
      have := ih j h
      simp only [List.set_cons_succ, List.countP_cons]
      omega

theorem loads_ok_set (l : List Pending) (i : Nat) (x : Pending)
    (hl : ∀ k ∈ l, k.awaiting = true ∨ k.completed = true)
    (hx : x.awaiting = true ∨ x.completed = true) :
    ∀ k ∈ l.set i x, k.awaiting = true ∨ k.completed = true := by
  intro k hk
  rcases List.mem_or_eq_of_mem_set hk with h | h
  · exact hl k h
  · rw [h]; exact hx

theorem loadedOf_some (loader : Loader) (url : String) (id : Nat) :
    ∃ a, loadedOf loader url (some id) = .ok a := by
  cases loader <;> exact ⟨_, rfl⟩

theorem runDeferred_keeps (url : String) (isSplat : Bool) (v : Viewer) :
    (runDeferred url isSplat v).scene = v.scene ∧
    (runDeferred url isSplat v).currentObject = v.currentObject := by
  unfold runDeferred
  cases h : applyStateForCurrent url v with
  | none => simp
  | some v1 =>
    obtain ⟨-, -, -, -, -, -, hobj, hscene, -⟩ := applyStateForCurrent_fields url v v1 h
    cases isSplat <;> simp [hobj, hscene]

theorem bgToggleClick_keeps (v : Viewer) :
    (bgToggleClick v).scene = v.scene ∧ (bgToggleClick v).currentObject = v.currentObject := by
  obtain ⟨w, hw, he⟩ := bgToggleClick_eq v
  obtain ⟨-, -, -, -, -, -, hobj, hscene, -⟩ := applyStateForCurrent_fields _ _ w hw
  rw [he, hobj, hscene]
  exact ⟨rfl, rfl⟩

theorem App.Attached.step (a : App) (e : Event) (ha : a.Attached)
    (he : e.successful = true) : (a.step e).Attached := by
  cases e with
  | start url => simp [Event.successful] at he
  | toggle =>
    obtain ⟨hs, ho⟩ := bgToggleClick_keeps a.viewer
    exact ⟨ha.loads_ok, by simpa [App.step, hs] using ha.wrappers,
      by simpa [App.step, hs] using ha.count, by simpa [App.step, hs, ho] using ha.active⟩
  | timer i =>
    simp only [App.step]
    cases hk : a.loads[i]? with
    | none => exact ha
    | some k =>
      cases k with
      | deferred url isSplat =>
        simp only
        obtain ⟨hs, ho⟩ := runDeferred_keeps url isSplat a.viewer
        have hmem : Pending.deferred url isSplat ∈ a.loads := List.getElem?_mem hk
        have hc : (Pending.deferred url isSplat).completed = true := by
          rcases ha.loads_ok _ hmem with h | h
          · simp [Pending.awaiting] at h
          · exact h
        have hcount := countP_set_completed a.loads i _ .finished hk
        have hf : Pending.finished.completed = true := rfl
        rw [hc, hf] at hcount
        simp only [if_true] at hcount
        refine ⟨loads_ok_set _ _ _ ha.loads_ok (Or.inr rfl), ?_, ?_, ?_⟩
        · simpa [hs] using ha.wrappers
        · show (runDeferred url isSplat a.viewer).scene.length
            = (a.loads.set i .finished).countP Pending.completed
          rw [hs]; have := ha.count; omega
        · show (runDeferred url isSplat a.viewer).currentObject
            = (runDeferred url isSplat a.viewer).scene.getLast?
          rw [hs, ho]; exact ha.active
      | awaitMtl url => exact ha
      | awaitModel loader url => exact ha
      | finished => exact ha
      | failed => exact ha
  | settle i o =>
    cases o with
    | rejected reason => simp [Event.successful] at he
    | resolved payload =>
      cases payload with
      | none => simp [Event.successful] at he
      | some id =>
        simp only [App.step]
        cases hk : a.loads[i]? with
        | none => exact ha
        | some k =>
          cases k with
          | awaitMtl url =>
            simp only [resume]
            have hcount := countP_set_completed a.loads i _ (.awaitModel .obj url) hk
            have h1 : (Pending.awaitMtl url).completed = false := rfl
            have h2 : (Pending.awaitModel .obj url).completed = false := rfl
            rw [h1, h2] at hcount
            refine ⟨loads_ok_set _ _ _ ha.loads_ok (Or.inl rfl), ha.wrappers, ?_, ha.active⟩
            show a.viewer.scene.length
              = (a.loads.set i (.awaitModel .obj url)).countP Pending.completed
            have := ha.count
            omega
          | awaitModel loader url =>
            obtain ⟨x, hx⟩ := loadedOf_some loader url id
            simp only [resume, hx, completeLoad]
            have hcount := countP_set_completed a.loads i _ (.deferred url false) hk
            have h1 : (Pending.awaitModel loader url).completed = false := rfl
            have h2 : (Pending.deferred url false).completed = true := rfl
            rw [h1, h2] at hcount
            simp only [Bool.false_eq_true, if_false, if_true] at hcount
            refine ⟨loads_ok_set _ _ _ ha.loads_ok (Or.inr rfl), ?_, ?_, ?_⟩
            · intro n hn
              simp only [List.mem_append, List.mem_singleton] at hn
              rcases hn with h | h
              · exact ha.wrappers n h
              · exact ⟨x, h⟩
            · show (a.viewer.scene ++ [SceneNode.wrapper x]).length
                = (a.loads.set i (.deferred url false)).countP Pending.completed
              have := ha.count
              simp only [List.length_append, List.length_singleton]
              omega
            · simp
          | deferred url isSplat => exact ha
          | finished => exact ha
          | failed => exact ha

theorem App.Attached.run (es : List Event) (a : App) (ha : a.Attached)
    (hes : ∀ e ∈ es, e.successful = true) : (a.run es).Attached := by
  induction es generalizing a with
  | nil => exact ha
  | cons e es ih =>
    have h1 := App.Attached.step a e ha (hes e (List.mem_cons_self e es))
    exact ih (a.step e) h1 (fun x hx => hes x (List.mem_cons_of_mem e hx))

theorem App.step_length (a : App) (e : Event) (he : e.successful = true) :
    (a.step e).loads.length = a.loads.length := by
  cases e with
  | start url => simp [Event.successful] at he
  | toggle => rfl
  | timer i =>
    simp only [App.step]
    cases hk : a.loads[i]? with
    | none => rfl
    | some k => cases k <;> simp
  | settle i o =>
    simp only [App.step]
    cases hk : a.loads[i]? with
    | none => rfl
    | some k => cases k <;> simp

theorem App.run_length (es : List Event) (a : App)
    (hes : ∀ e ∈ es, e.successful = true) : (a.run es).loads.length = a.loads.length := by
  induction es generalizing a with
  | nil => rfl
  | cons e es ih =>
    have h1 := App.step_length a e (hes e (List.mem_cons_self e es))
    have h2 := ih (a.step e) (fun x hx => hes x (List.mem_cons_of_mem e hx))
    simp only [App.run, List.foldl_cons] at h2 ⊢
    rw [h2, h1]

theorem loadAny_loader_path (url : String) (v : Viewer)
    (h : isLumaCapture url = false ∧ ext url ∈ loaderExtensions) :
    (loadAny url v).viewer = { removeCurrent v with loadingShown := true } ∧
    (loadAny url v).next.awaiting = true := by
  obtain ⟨hl, hext⟩ := h
  simp only [loaderExtensions, List.mem_cons, List.mem_singleton, List.not_mem_nil,
    or_false] at hext
  unfold loadAny normalizedExt
  rcases hext with h | h | h | h | h | h | h <;> simp [hl, h, Pending.awaiting]

theorem removeCurrent_clears (v : Viewer) (hv : v.scene = v.currentObject.toList) :
    (removeCurrent v).scene = [] ∧ (removeCurrent v).currentObject = none := by
  unfold removeCurrent
  cases h : v.currentObject with
  | none => simp [hv, h]
  | some o => simp [hv, h]

theorem App.Attached.start (a : App) (url : String) (ha : a.Attached)
    (hroute : isLumaCapture url = false ∧ ext url ∈ loaderExtensions)
    (hpend : ∀ k ∈ a.loads, k.awaiting = true) :
    (a.step (.start url)).Attached ∧
    (a.step (.start url)).loads.length = a.loads.length + 1 := by
  obtain ⟨hview, hnext⟩ := loadAny_loader_path url a.viewer hroute
  have hzero : a.loads.countP Pending.completed = 0 := by
    rw [List.countP_eq_zero]
    intro k hk
    simp [Pending.not_completed_of_awaiting k (hpend k hk)]
  have hnil : a.viewer.scene = [] := by
    have := ha.count
    rw [hzero] at this
    exact List.length_eq_zero.mp this
  have hnone : a.viewer.currentObject = none := by
    rw [ha.active, hnil]; rfl
  have hrem : removeCurrent a.viewer = a.viewer := by
    unfold removeCurrent; rw [hnone]
  simp only [App.step]
  refine ⟨⟨?_, ?_, ?_, ?_⟩, by simp⟩
  · intro k hk
    simp only [List.mem_append, List.mem_singleton] at hk
    rcases hk with h | h
    · exact ha.loads_ok k h
    · rw [h]; exact Or.inl hnext
  · show ∀ n ∈ (loadAny url a.viewer).viewer.scene, ∃ x, n = SceneNode.wrapper x
    rw [hview, hrem]
    simp [hnil]
  · show (loadAny url a.viewer).viewer.scene.length
      = (a.loads ++ [(loadAny url a.viewer).next]).countP Pending.completed
    rw [hview, hrem, List.countP_append, hzero]
    simp [hnil, Pending.not_completed_of_awaiting _ hnext]
  · show (loadAny url a.viewer).viewer.currentObject
      = (loadAny url a.viewer).viewer.scene.getLast?
    rw [hview, hrem]
    simp [hnil, hnone]

/-- C3 (amended): `loadAny(A)` is started on a page whose scene holds just
the active object, any turns follow in which A's loaders may resolve but A
stays pending, `loadAny(B)` is started, and further turns follow after which
both loads have attached their result; no loader fails and both URLs go to a
format loader.  Then the scene holds exactly two wrapper nodes, and the
active object is the one attached last. -/
theorem overlapping_loads_both_attached (urlA urlB : String) (v : Viewer)
    (es1 es2 : List Event)
    (hv : v.scene = v.currentObject.toList)
    (hA : isLumaCapture urlA = false ∧ ext urlA ∈ loaderExtensions)
    (hB : isLumaCapture urlB = false ∧ ext urlB ∈ loaderExtensions)
    (h1 : ∀ e ∈ es1, e.successful = true)
    (h2 : ∀ e ∈ es2, e.successful = true)
    (hpend : ∀ k ∈ ((App.mk v []).run (.start urlA :: es1)).loads, k.awaiting = true)
    (hdone : ∀ k ∈ ((App.mk v []).run (.start urlA :: es1 ++ .start urlB :: es2)).loads,
      k.completed = true) :
    ∃ a b,
      ((App.mk v []).run (.start urlA :: es1 ++ .start urlB :: es2)).viewer.scene
        = [.wrapper a, .wrapper b] ∧
      ((App.mk v []).run (.start urlA :: es1 ++ .start urlB :: es2)).viewer.currentObject
        = some (.wrapper b) := by
  obtain ⟨hview, hnext⟩ := loadAny_loader_path urlA v hA
  obtain ⟨hs0, ho0⟩ := removeCurrent_clears v hv
  -- after the start of A
  have ha0 : ((App.mk v []).step (.start urlA)).Attached := by
    simp only [App.step]
    refine ⟨?_, ?_, ?_, ?_⟩
    · intro k hk
      simp only [List.nil_append, List.mem_singleton] at hk
      rw [hk]; exact Or.inl hnext
    · show ∀ n ∈ (loadAny urlA v).viewer.scene, ∃ x, n = SceneNode.wrapper x
      rw [hview]; simp [hs0]
    · show (loadAny urlA v).viewer.scene.length
        = ([] ++ [(loadAny urlA v).next]).countP Pending.completed
      rw [hview]
      simp [hs0, Pending.not_completed_of_awaiting _ hnext]
    · show (loadAny urlA v).viewer.currentObject = (loadAny urlA v).viewer.scene.getLast?
      rw [hview]; simp [hs0, ho0]
  have hl0 : ((App.mk v []).step (.start urlA)).loads.length = 1 := by simp [App.step]
  -- after the turns before the start of B
  have hrun1 : (App.mk v []).run (.start urlA :: es1)
      = ((App.mk v []).step (.start urlA)).run es1 := by
    simp [App.run]
  have ha1 := App.Attached.run es1 _ ha0 h1
  have hl1 := App.run_length es1 ((App.mk v []).step (.start urlA)) h1
  rw [hrun1] at hpend
  -- after the start of B
  obtain ⟨ha2, hl2⟩ := App.Attached.start _ urlB ha1 hB hpend
  -- after the remaining turns
  have hrun2 : (App.mk v []).run (.start urlA :: es1 ++ .start urlB :: es2)
      = ((((App.mk v []).step (.start urlA)).run es1).step (.start urlB)).run es2 := by
    simp [App.run, List.foldl_append]
  rw [hrun2] at hdone ⊢
  have ha3 := App.Attached.run es2 _ ha2 h2
  have hl3 := App.run_length es2
    ((((App.mk v []).step (.start urlA)).run es1).step (.start urlB)) h2
  generalize ((((App.mk v []).step (.start urlA)).run es1).step (.start urlB)).run es2 = fin
    at hdone ha3 hl3 ⊢
  have hfull : fin.loads.countP Pending.completed = fin.loads.length := by
    rw [List.countP_eq_length]
    intro k hk
    exact hdone k hk
  have hlen : fin.viewer.scene.length = 2 := by
    rw [ha3.count, hfull, hl3, hl2, hl1, hl0]
  obtain ⟨x, y, hxy⟩ := List.length_eq_two.mp hlen
  obtain ⟨a, hxa⟩ := ha3.wrappers x (by rw [hxy]; simp)
  obtain ⟨b, hyb⟩ := ha3.wrappers y (by rw [hxy]; simp)
  refine ⟨a, b, ?_, ?_⟩
  · rw [hxy, hxa, hyb]
  · rw [ha3.active, hxy, hyb]; rfl

/-- C3 (amended), evaluated: `model.obj` is started and its material file
resolves, `model2.glb` is started and resolves first, then `model.obj`
resolves; the scene holds both wrappers and the active object is the one of
`model.obj`, attached last. -/
theorem overlapping_loads_both_attached_witness :
    ∃ a b,
      ((App.mk (Viewer.initial true "") []).run
        (.start "model.obj" :: [.settle 0 (.resolved (some 0))] ++ .start "model2.glb" ::
          [.settle 1 (.resolved (some 2)), .timer 1,
           .settle 0 (.resolved (some 1)), .timer 0])).viewer.scene
        = [.wrapper a, .wrapper b] ∧
      ((App.mk (Viewer.initial true "") []).run
        (.start "model.obj" :: [.settle 0 (.resolved (some 0))] ++ .start "model2.glb" ::
          [.settle 1 (.resolved (some 2)), .timer 1,
           .settle 0 (.resolved (some 1)), .timer 0])).viewer.currentObject
        = some (.wrapper b) :=
  overlapping_loads_both_attached "model.obj" "model2.glb" (Viewer.initial true "")
    [.settle 0 (.resolved (some 0))]
    [.settle 1 (.resolved (some 2)), .timer 1, .settle 0 (.resolved (some 1)), .timer 0]
    (by decide) (by decide) (by decide) (by decide) (by decide) (by decide) (by decide)

/-! ## Theorems: VR interaction -/

section VRTheorems

variable {K : Type} [LinearOrderedField K]

theorem updateControllerRotation_pitch (m : JSMath K) (c0 c1 : Vector3 K) (s : VRState K)
    (hm : 0 ≤ MAX_PITCH m)
    (h : -(MAX_PITCH m) ≤ s.pitchTarget ∧ s.pitchTarget ≤ MAX_PITCH m) :
    -(MAX_PITCH m) ≤ (updateControllerRotation m c0 c1 s).pitchTarget ∧
      (updateControllerRotation m c0 c1 s).pitchTarget ≤ MAX_PITCH m := by
  unfold updateControllerRotation
  split
  · exact h
  · split
    · exact h
    · exact ⟨le_max_left _ _, max_le (by linarith) (min_le_left _ _)⟩

theorem updateControllerRotation_distance (m : JSMath K) (c0 c1 : Vector3 K) (s : VRState K) :
    (updateControllerRotation m c0 c1 s).distanceTarget = s.distanceTarget ∧
    (updateControllerRotation m c0 c1 s).inXR = s.inXR := by
  unfold updateControllerRotation
  split
  · exact ⟨rfl, rfl⟩
  · split <;> exact ⟨rfl, rfl⟩

theorem pitch_step (m : JSMath K) (s : VRState K) (e : VREvent K) (hm : 0 ≤ MAX_PITCH m)
    (h : -(MAX_PITCH m) ≤ s.pitchTarget ∧ s.pitchTarget ≤ MAX_PITCH m) :
    -(MAX_PITCH m) ≤ (s.step m e).pitchTarget ∧ (s.step m e).pitchTarget ≤ MAX_PITCH m := by
  have h0 : -(MAX_PITCH m) ≤ (0 : K) ∧ (0 : K) ≤ MAX_PITCH m := ⟨by linarith, hm⟩
  cases e with
  | sessionStart pose =>
    simp only [VRState.step, sessionStart, placeObjectInFrontOfCamera]
    split <;> exact h0
  | sessionEnd => exact h
  | selectStart ctrl position => exact h
  | selectEnd => exact h
  | frame input =>
    simp only [VRState.step, animationFrame]
    split
    · exact updateControllerRotation_pitch m _ _ s hm h
    · exact h
  | objectRemoved => exact h
  | objectLoaded pose =>
    simp only [VRState.step, objectLoaded, placeObjectInFrontOfCamera]
    split
    · exact h0
    · exact h

theorem pitch_run (m : JSMath K) (es : List (VREvent K)) (s : VRState K)
    (hm : 0 ≤ MAX_PITCH m)
    (h : -(MAX_PITCH m) ≤ s.pitchTarget ∧ s.pitchTarget ≤ MAX_PITCH m) :
    -(MAX_PITCH m) ≤ (s.run m es).pitchTarget ∧ (s.run m es).pitchTarget ≤ MAX_PITCH m := by
  induction es generalizing s with
  | nil => exact h
  | cons e es ih => exact ih (s.step m e) (pitch_step m s e hm h)

theorem stickDistance_bounds (stickY d : K) (h : MIN_DIST ≤ d ∧ d ≤ MAX_DIST) :
    MIN_DIST ≤ stickDistance stickY d ∧ stickDistance stickY d ≤ MAX_DIST := by
  unfold stickDistance
  split
  · refine ⟨le_max_left _ _, max_le ?_ (min_le_left _ _)⟩
    unfold MIN_DIST MAX_DIST
    norm_num
  · exact h

theorem distance_step (m : JSMath K) (s : VRState K) (e : VREvent K)
    (h : MIN_DIST ≤ s.distanceTarget ∧ s.distanceTarget ≤ MAX_DIST) :
    MIN_DIST ≤ (s.step m e).distanceTarget ∧ (s.step m e).distanceTarget ≤ MAX_DIST := by
  have h1 : (MIN_DIST : K) ≤ 1 ∧ (1 : K) ≤ MAX_DIST := by
    unfold MIN_DIST MAX_DIST
    constructor <;> norm_num
  cases e with
  | sessionStart pose =>
    simp only [VRState.step, sessionStart, placeObjectInFrontOfCamera]
    split
    · exact h1
    · exact h
  | sessionEnd => exact h
  | selectStart ctrl position => exact h
  | selectEnd => exact h
  | frame input =>
    simp only [VRState.step, animationFrame]
    split
    · apply stickDistance_bounds
      rw [(updateControllerRotation_distance m _ _ s).1]
      exact h
    · exact h
  | objectRemoved => exact h
  | objectLoaded pose =>
    simp only [VRState.step, objectLoaded, placeObjectInFrontOfCamera]
    split
    · exact h1
    · exact h

/-- C5: from the script's initial variables, after any sequence of session
starts and ends, grabs, animation frames (any controller positions, any
gamepad axes) and loads, `distanceTarget` lies in `[MIN_DIST, MAX_DIST]`,
that is in `[0.3, 3.5]`. -/
theorem distanceTarget_within_bounds (m : JSMath K) (es : List (VREvent K)) :
    (3 / 10 : K) ≤ ((VRState.initial : VRState K).run m es).distanceTarget ∧
      ((VRState.initial : VRState K).run m es).distanceTarget ≤ 35 / 10 := by
  have key : ∀ (l : List (VREvent K)) (s : VRState K),
      (MIN_DIST ≤ s.distanceTarget ∧ s.distanceTarget ≤ MAX_DIST) →
      (MIN_DIST ≤ (s.run m l).distanceTarget ∧ (s.run m l).distanceTarget ≤ MAX_DIST) := by
    intro l
    induction l with
    | nil => intro s h; exact h
    | cons e l ih => intro s h; exact ih (s.step m e) (distance_step m s e h)
  have hinit : (MIN_DIST : K) ≤ (VRState.initial : VRState K).distanceTarget ∧
      (VRState.initial : VRState K).distanceTarget ≤ MAX_DIST := by
    unfold MIN_DIST MAX_DIST VRState.initial
    constructor <;> norm_num
  exact key es _ hinit

theorem updateControllerRotation_idle (m : JSMath K) (c0 c1 : Vector3 K) (s : VRState K)
    (h : s.active = false) : updateControllerRotation m c0 c1 s = s := by
  unfold updateControllerRotation
  simp [h]

theorem animationFrame_idle (m : JSMath K) (input : FrameInput K) (s : VRState K)
    (hxr : s.inXR = true) (hgrab : s.active = false)
    (hstick : getThumbstickY input.session = 0) :
    (animationFrame m input s).inXR = true ∧
    (animationFrame m input s).active = false ∧
    (animationFrame m input s).yawTarget = s.yawTarget ∧
    (animationFrame m input s).pitchTarget = s.pitchTarget ∧
    (animationFrame m input s).distanceTarget = s.distanceTarget ∧
    yawGap (animationFrame m input s) = 82 / 100 * yawGap s ∧
    pitchGap (animationFrame m input s) = 82 / 100 * pitchGap s ∧
    distanceGap (animationFrame m input s) = 82 / 100 * distanceGap s := by
  unfold animationFrame
  rw [if_pos hxr, updateControllerRotation_idle m _ _ s hgrab, hstick]
  simp only [stickDistance, ne_eq, not_true_eq_false, if_false, yawGap, pitchGap, distanceGap,
    smooth, SMOOTH, DIST_SMOOTH]
  refine ⟨hxr, hgrab, trivial, trivial, trivial, ?_, ?_, ?_⟩ <;> ring

theorem gap_scaled (r g g1 : K) (n : ℕ) (h0 : 0 ≤ r) (h1 : r ≤ 1) (h : g1 = r ^ n * g) :
    |g1| ≤ |g| ∧ (0 ≤ g → 0 ≤ g1) ∧ (g ≤ 0 → g1 ≤ 0) := by
  have hp0 : 0 ≤ r ^ n := pow_nonneg h0 n
  have hp1 : r ^ n ≤ 1 := pow_le_one₀ h0 h1
  refine ⟨?_, ?_, ?_⟩
  · rw [h, abs_mul, abs_of_nonneg hp0]
    exact mul_le_of_le_one_left (abs_nonneg g) hp1
  · intro hg; rw [h]; exact mul_nonneg hp0 hg
  · intro hg; rw [h]; exact mul_nonpos_of_nonneg_of_nonpos hp0 hg

theorem frames_idle (m : JSMath K) (inputs : List (FrameInput K)) (s : VRState K)
    (hxr : s.inXR = true) (hgrab : s.active = false)
    (hstick : ∀ i ∈ inputs, getThumbstickY i.session = 0) :
    (s.run m (inputs.map VREvent.frame)).yawTarget = s.yawTarget ∧
    (s.run m (inputs.map VREvent.frame)).pitchTarget = s.pitchTarget ∧
    (s.run m (inputs.map VREvent.frame)).distanceTarget = s.distanceTarget ∧
    yawGap (s.run m (inputs.map VREvent.frame)) = (82 / 100) ^ inputs.length * yawGap s ∧
    pitchGap (s.run m (inputs.map VREvent.frame))
      = (82 / 100) ^ inputs.length * pitchGap s ∧
    distanceGap (s.run m (inputs.map VREvent.frame))
      = (82 / 100) ^ inputs.length * distanceGap s := by
  induction inputs generalizing s with
  | nil => simp [VRState.run]
  | cons i is ih =>
    obtain ⟨a1, a2, a3, a4, a5, a6, a7, a8⟩ :=
      animationFrame_idle m i s hxr hgrab (hstick i (List.mem_cons_self i is))
    obtain ⟨b1, b2, b3, b4, b5, b6⟩ :=
      ih (animationFrame m i s) a1 a2 (fun j hj => hstick j (List.mem_cons_of_mem i hj))
    have hrun : s.run m ((i :: is).map VREvent.frame)
        = (animationFrame m i s).run m (is.map VREvent.frame) := by
      simp [VRState.run, VRState.step]
    rw [hrun, b1, b2, b3, b4, b5, b6, a3, a4, a5, a6, a7, a8]
    simp only [List.length_cons, pow_succ]
    refine ⟨trivial, trivial, trivial, ?_, ?_, ?_⟩ <;> ring

theorem updateControllerRotation_smoothed (m : JSMath K) (c0 c1 : Vector3 K)
    (s : VRState K) :
    (updateControllerRotation m c0 c1 s).vrYaw = s.vrYaw ∧
    (updateControllerRotation m c0 c1 s).vrPitch = s.vrPitch ∧
    (updateControllerRotation m c0 c1 s).vrDistance = s.vrDistance := by
  unfold updateControllerRotation
  split
  · exact ⟨rfl, rfl, rfl⟩
  · split <;> exact ⟨rfl, rfl, rfl⟩

theorem animationFrame_smoothed (m : JSMath K) (input : FrameInput K) (s : VRState K)
    (hxr : s.inXR = true) :
    (animationFrame m input s).inXR = true ∧
    (animationFrame m input s).vrYaw
      = smooth s.vrYaw (animationFrame m input s).yawTarget ∧
    (animationFrame m input s).vrPitch
      = smooth s.vrPitch (animationFrame m input s).pitchTarget ∧
    (animationFrame m input s).vrDistance
      = s.vrDistance + ((animationFrame m input s).distanceTarget - s.vrDistance) * DIST_SMOOTH := by
  obtain ⟨k1, k2, k3⟩ :=
    updateControllerRotation_smoothed m input.controller0 input.controller1 s
  have kx := (updateControllerRotation_distance m input.controller0 input.controller1 s).2
  unfold animationFrame
  rw [if_pos hxr]
  refine ⟨?_, ?_, ?_, ?_⟩
  · show (updateControllerRotation m input.controller0 input.controller1 s).inXR = true
    rw [kx, hxr]
  · show smooth (updateControllerRotation m input.controller0 input.controller1 s).vrYaw _ = _
    rw [k1]
  · show smooth (updateControllerRotation m input.controller0 input.controller1 s).vrPitch _ = _
    rw [k2]
  · show (updateControllerRotation m input.controller0 input.controller1 s).vrDistance
        + (_ - (updateControllerRotation m input.controller0 input.controller1 s).vrDistance)
          * DIST_SMOOTH = _
    rw [k3]

theorem animationFrame_gap (m : JSMath K) (input : FrameInput K) (s : VRState K)
    (c : Smoothed) (hxr : s.inXR = true)
    (h : c.target (animationFrame m input s) = c.target s) :
    c.gap (animationFrame m input s) = 82 / 100 * c.gap s := by
  obtain ⟨-, e1, e2, e3⟩ := animationFrame_smoothed m input s hxr
  cases c
  · simp only [Smoothed.target] at h
    simp only [Smoothed.gap, Smoothed.target, Smoothed.value]
    rw [e1, h, smooth, SMOOTH]
    ring
  · simp only [Smoothed.target] at h
    simp only [Smoothed.gap, Smoothed.target, Smoothed.value]
    rw [e2, h, smooth, SMOOTH]
    ring
  · simp only [Smoothed.target] at h
    simp only [Smoothed.gap, Smoothed.target, Smoothed.value]
    rw [e3, h, DIST_SMOOTH]
    ring

theorem frames_gap (m : JSMath K) (c : Smoothed) (inputs : List (FrameInput K))
    (s : VRState K) (hxr : s.inXR = true)
    (hconst : ∀ k ≤ inputs.length,
      c.target (s.run m ((inputs.take k).map VREvent.frame)) = c.target s) :
    c.gap (s.run m (inputs.map VREvent.frame)) = (82 / 100) ^ inputs.length * c.gap s := by
  induction inputs generalizing s with
  | nil => simp [VRState.run]
  | cons i is ih =>
    have hstep : ∀ l : List (FrameInput K), s.run m ((i :: l).map VREvent.frame)
        = (animationFrame m i s).run m (l.map VREvent.frame) := by
      intro l; simp [VRState.run, VRState.step]
    have h1 : c.target (animationFrame m i s) = c.target s := by
      have := hconst 1 (by simp)
      simpa [VRState.run, VRState.step] using this
    have hxr1 := (animationFrame_smoothed m i s hxr).1
    have hrest : ∀ k ≤ is.length,
        c.target ((animationFrame m i s).run m ((is.take k).map VREvent.frame))
          = c.target (animationFrame m i s) := by
      intro k hk
      have := hconst (k + 1) (by simp only [List.length_cons]; omega)
      rw [List.take_succ_cons, hstep] at this
      rw [this, h1]
    rw [hstep, ih (animationFrame m i s) hxr1 hrest, animationFrame_gap m i s c hxr h1]
    simp only [List.length_cons, pow_succ]
    ring

/-- C6: in VR, for each smoothed variable (`vrYaw`, `vrPitch`, `vrDistance`):
if its target has the same value after every one of `n` consecutive
animation frames as before them (whatever the controllers and sticks do
otherwise), then the gap `target - smoothed` after the `n` frames is
`0.82 ^ n` times the gap before; so its magnitude has not grown and its sign
has not flipped.  One frame is the case `n = 1`: the smoothing step
`x += (t - x) * 0.18` multiplies the gap by 0.82. -/
theorem smoothing_gap (m : JSMath K) (c : Smoothed) (inputs : List (FrameInput K))
    (s : VRState K) (hxr : s.inXR = true)
    (hconst : ∀ k ≤ inputs.length,
      c.target (s.run m ((inputs.take k).map VREvent.frame)) = c.target s) :
    c.gap (s.run m (inputs.map VREvent.frame)) = (82 / 100) ^ inputs.length * c.gap s ∧
    |c.gap (s.run m (inputs.map VREvent.frame))| ≤ |c.gap s| ∧
    (0 ≤ c.gap s → 0 ≤ c.gap (s.run m (inputs.map VREvent.frame))) ∧
    (c.gap s ≤ 0 → c.gap (s.run m (inputs.map VREvent.frame)) ≤ 0) := by
  have hgap := frames_gap m c inputs s hxr hconst
  have h0 : (0 : K) ≤ 82 / 100 := by norm_num
  have h1 : (82 / 100 : K) ≤ 1 := by norm_num
  exact ⟨hgap, gap_scaled _ _ _ _ h0 h1 hgap⟩

end VRTheorems

/-- C6, evaluated: a frame with the stick pushed fully and a frame at rest.
The distance target moves, the yaw target stays at 1, and the yaw gap is
multiplied by `0.82 ^ 2`. -/
theorem smoothing_gap_witness :
    (idleState.run sampleMath ([pushInput, restInput].map VREvent.frame)).distanceTarget
      ≠ idleState.distanceTarget ∧
    Smoothed.gap .yaw (idleState.run sampleMath ([pushInput, restInput].map VREvent.frame))
      = (82 / 100) ^ [pushInput, restInput].length * Smoothed.gap .yaw idleState :=
  ⟨by decide!,
   (smoothing_gap sampleMath .yaw [pushInput, restInput] idleState rfl (by decide!)).1⟩

/-- C4: from the script's initial variables, after any sequence of session
starts and ends, grabs, animation frames (any controller positions) and
loads, `pitchTarget` lies in `[-0.49π, 0.49π]`. -/
theorem pitchTarget_within_bounds (sin cos : ℝ → ℝ) (es : List (VREvent ℝ)) :
    -(Real.pi * (49 / 100)) ≤
        ((VRState.initial : VRState ℝ).run ⟨Real.pi, sin, cos⟩ es).pitchTarget ∧
      ((VRState.initial : VRState ℝ).run ⟨Real.pi, sin, cos⟩ es).pitchTarget
        ≤ Real.pi * (49 / 100) := by
  have hm : (0 : ℝ) ≤ MAX_PITCH ⟨Real.pi, sin, cos⟩ := by
    unfold MAX_PITCH
    have := Real.pi_pos
    positivity
  have h := pitch_run ⟨Real.pi, sin, cos⟩ es (VRState.initial : VRState ℝ) hm
    ⟨by simpa [VRState.initial] using hm, by simpa [VRState.initial] using hm⟩
  simpa [MAX_PITCH] using h

/-! ## Theorems: session start and thumbstick -/

section SessionTheorems

variable {K : Type} [LinearOrderedField K]

/-- C11: with an active object, the `sessionstart` handler (for the pose
read off the XR camera: position `p`, forward vector `f`, heading `y`) turns
VR mode on, leaves the object at `p + 1 * f` with rotation `(0, y, 0)`,
records `entryYaw = y`, and leaves `yawTarget`, `pitchTarget`, `vrYaw`,
`vrPitch` at 0 and `distanceTarget`, `vrDistance` at 1. -/
theorem sessionStart_places_object (pose : CameraPose K) (s : VRState K)
    (hobj : s.hasObject = true) :
    (sessionStart pose s).inXR = true ∧
    (sessionStart pose s).objPosition =
      ⟨pose.position.x + 1 * pose.forward.x,
       pose.position.y + 1 * pose.forward.y,
       pose.position.z + 1 * pose.forward.z⟩ ∧
    (sessionStart pose s).objRotation = ⟨0, pose.yaw, 0⟩ ∧
    (sessionStart pose s).entryYaw = pose.yaw ∧
    (sessionStart pose s).yawTarget = 0 ∧
    (sessionStart pose s).pitchTarget = 0 ∧
    (sessionStart pose s).vrYaw = 0 ∧
    (sessionStart pose s).vrPitch = 0 ∧
    (sessionStart pose s).distanceTarget = 1 ∧
    (sessionStart pose s).vrDistance = 1 := by
  unfold sessionStart
  simp only [hobj, if_true, placeObjectInFrontOfCamera, mul_one, one_mul]
  exact ⟨trivial, trivial, trivial, trivial, trivial, trivial, trivial, trivial, trivial,
    trivial⟩

end SessionTheorems

/-- C11, evaluated: from a state with targets away from their defaults and
the headset at `(1, 1.6, 2)` looking along `-z`, the object ends at
`(1, 1.6, 1)`. -/
theorem sessionStart_places_object_witness :
    idleState.hasObject = true ∧
    (sessionStart samplePose idleState).objPosition = ⟨1, 8 / 5, 1⟩ ∧
    (sessionStart samplePose idleState).distanceTarget = 1 :=
  ⟨rfl,
   by
    rw [(sessionStart_places_object samplePose idleState rfl).2.1]
    decide!,
   (sessionStart_places_object samplePose idleState rfl).2.2.2.2.2.2.2.2.1⟩

section ThumbstickTheorems

variable {K : Type} [LinearOrderedField K]

theorem candidates_eq (axes : List K) :
    candidates axes = axes[1]?.toList ++ axes[3]?.toList := by
  rcases axes with _ | ⟨a, _ | ⟨b, _ | ⟨c, _ | ⟨d, rest⟩⟩⟩⟩ <;> simp [candidates]

theorem foldl_largest (cs : List K) (b : K) :
    (cs.foldl (fun best v => if |v| > |best| then v else best) b = b ∨
      cs.foldl (fun best v => if |v| > |best| then v else best) b ∈ cs) ∧
    |b| ≤ |cs.foldl (fun best v => if |v| > |best| then v else best) b| ∧
    ∀ v ∈ cs, |v| ≤ |cs.foldl (fun best v => if |v| > |best| then v else best) b| := by
  induction cs generalizing b with
  | nil => simp
  | cons c cs ih =>
    simp only [List.foldl_cons]
    by_cases hc : |c| > |b|
    · rw [if_pos hc]
      obtain ⟨h1, h2, h3⟩ := ih c
      refine ⟨Or.inr ?_, le_trans (le_of_lt hc) h2, ?_⟩
      · rcases h1 with h | h
        · rw [h]; exact List.mem_cons_self c cs
        · exact List.mem_cons_of_mem c h
      · intro v hv
        rcases List.mem_cons.mp hv with h | h
        · rw [h]; exact h2
        · exact h3 v h
    · rw [if_neg hc]
      obtain ⟨h1, h2, h3⟩ := ih b
      refine ⟨?_, h2, ?_⟩
      · rcases h1 with h | h
        · exact Or.inl h
        · exact Or.inr (List.mem_cons_of_mem c h)
      · intro v hv
        rcases List.mem_cons.mp hv with h | h
        · rw [h]; exact le_trans (not_lt.mp hc) h2
        · exact h3 v h

theorem localY_spec (axes : List K) :
    (localY axes = 0 ∨ localY axes ∈ axes[1]?.toList ++ axes[3]?.toList) ∧
    ∀ v ∈ axes[1]?.toList ++ axes[3]?.toList, |v| ≤ |localY axes| := by
  have hl : localY axes = (axes[1]?.toList ++ axes[3]?.toList).foldl
      (fun best v => if |v| > |best| then v else best) 0 := by
    rw [← candidates_eq]; rfl
  obtain ⟨h1, -, h3⟩ := foldl_largest (axes[1]?.toList ++ axes[3]?.toList) 0
  rw [hl]
  exact ⟨h1, h3⟩

theorem short_axes_no_values (axes : List K) (h : axes.length < 2) :
    axes[1]?.toList ++ axes[3]?.toList = [] := by
  rcases axes with _ | ⟨a, _ | ⟨b, rest⟩⟩
  · simp
  · simp
  · simp only [List.length_cons] at h
    omega

theorem thumbstickLoop_spec (srcs : List (Option (List K))) (y0 : K) :
    |y0| ≤ |thumbstickLoop srcs y0| ∧
    (thumbstickLoop srcs y0 = y0 ∨
      (thumbstickLoop srcs y0 ∈ verticalAxisValues srcs ∧ DZ < |thumbstickLoop srcs y0|)) ∧
    ∀ v ∈ verticalAxisValues srcs, |v| ≤ |thumbstickLoop srcs y0| ∨ |v| ≤ DZ := by
  induction srcs generalizing y0 with
  | nil => simp [thumbstickLoop, verticalAxisValues]
  | cons src srcs ih =>
    cases src with
    | none => simpa [thumbstickLoop, verticalAxisValues] using ih y0
    | some axes =>
      obtain ⟨hl1, hl2⟩ := localY_spec axes
      simp only [thumbstickLoop, verticalAxisValues]
      by_cases hshort : axes.length < 2
      · rw [if_pos hshort, short_axes_no_values axes hshort]
        simpa using ih y0
      · rw [if_neg hshort]
        by_cases hup : |localY axes| > |y0| ∧ |localY axes| > DZ
        · rw [if_pos hup]
          obtain ⟨i1, i2, i3⟩ := ih (localY axes)
          refine ⟨le_trans (le_of_lt hup.1) i1, Or.inr ?_, ?_⟩
          · rcases i2 with h | ⟨h, hd⟩
            · rw [h]
              refine ⟨?_, hup.2⟩
              have hne : localY axes ≠ 0 := by
                intro h0
                rw [h0, abs_zero] at hup
                exact absurd hup.1 (not_lt.mpr (abs_nonneg y0))
              rcases hl1 with h0 | hm
              · exact absurd h0 hne
              · exact List.mem_append_left _ hm
            · exact ⟨List.mem_append_right _ h, hd⟩
          · intro v hv
            rcases List.mem_append.mp hv with h | h
            · exact Or.inl (le_trans (hl2 v h) i1)
            · exact i3 v h
        · rw [if_neg hup]
          obtain ⟨i1, i2, i3⟩ := ih y0
          refine ⟨i1, ?_, ?_⟩
          · rcases i2 with h | ⟨h, hd⟩
            · exact Or.inl h
            · exact Or.inr ⟨List.mem_append_right _ h, hd⟩
          · intro v hv
            rcases List.mem_append.mp hv with h | h
            · have hv1 := hl2 v h
              rcases not_and_or.mp hup with h1 | h1
              · exact Or.inl (le_trans hv1 (le_trans (not_lt.mp h1) i1))
              · exact Or.inr (le_trans hv1 (not_lt.mp h1))
            · exact i3 v h

/-- C12: `getThumbstickY()` returns 0, or a vertical-axis value (`axes[1]` or
`axes[3]` of some input source) whose magnitude is above 0.15 and at least
that of every vertical-axis value of every source; and it returns 0 exactly
when there is no session or no vertical-axis value has a magnitude above
0.15. -/
theorem getThumbstickY_spec (session : Option (List (Option (List K)))) :
    (getThumbstickY session = 0 ∨
      (getThumbstickY session ∈ sessionAxisValues session ∧
        15 / 100 < |getThumbstickY session| ∧
        ∀ v ∈ sessionAxisValues session, |v| ≤ |getThumbstickY session|)) ∧
    (getThumbstickY session = 0 ↔
      (session = none ∨ ∀ v ∈ sessionAxisValues session, ¬ (15 / 100 < |v|))) := by
  have hDZ : (DZ : K) = 15 / 100 := rfl
  have hpos : (0 : K) < 15 / 100 := by norm_num
  cases session with
  | none => simp [getThumbstickY, sessionAxisValues]
  | some srcs =>
    obtain ⟨-, i2, i3⟩ := thumbstickLoop_spec srcs (0 : K)
    rw [hDZ] at i2 i3
    simp only [getThumbstickY, sessionAxisValues]
    refine ⟨?_, ?_, ?_⟩
    · rcases i2 with h | ⟨h, hd⟩
      · exact Or.inl h
      · refine Or.inr ⟨h, hd, ?_⟩
        intro v hv
        rcases i3 v hv with h1 | h1
        · exact h1
        · exact le_trans h1 (le_of_lt hd)
    · intro h0
      refine Or.inr ?_
      intro v hv
      rcases i3 v hv with h1 | h1
      · rw [h0, abs_zero] at h1
        exact not_lt.mpr (le_trans h1 (le_of_lt hpos))
      · exact not_lt.mpr h1
    · intro h
      rcases h with h | h
      · cases h
      · rcases i2 with h1 | ⟨h1, hd⟩
        · exact h1
        · exact absurd hd (h _ h1)

end ThumbstickTheorems


/-- C12, evaluated: of the vertical values `0.2`, `-0.5` and `0.5` the loop
keeps `-0.5`, the first of the largest magnitude; sticks inside the deadzone
give 0. -/
theorem getThumbstickY_examples :
    getThumbstickY (some [some [0, 1 / 5, 0, -1 / 2], none, some [0, 1 / 2], some [7]] :
      Option (List (Option (List ℚ)))) = -1 / 2 ∧
    sessionAxisValues (some [some [0, 1 / 5, 0, -1 / 2], none, some [0, 1 / 2], some [7]] :
      Option (List (Option (List ℚ)))) = [1 / 5, -1 / 2, 1 / 2] ∧
    getThumbstickY restInput.session = 0 := by
  decide!

end ModelViewer
